import Mathlib

/-!
# PitchPlease — shallow embedding and verification

A shallow embedding of `src/pitchplease.js` (polyphonic pitch detection):
music math, the chord-template matcher, the peak extractor, the harmonic
sieve, the stability gate, the chord-change emitter and the noise-floor
update, with theorems checking the specification's claims against them.

Modelling conventions:
* JavaScript numbers are modelled by `ℚ` (every finite double is rational;
  all constants of this code — `0.1`, `0.5`, `0.3`, `0.95`, `0.05` — are
  written as exact rationals).
* `Math.round` is `fun q => ⌊q + 1/2⌋` (JS rounds half toward +∞).
* The JS remainder operator `%` is `Int.tmod` (sign of the dividend).
* `Array.prototype.sort((a,b) => a-b)` on integers is `List.insertionSort (· ≤ ·)`.
* `[...new Set(l)]` keeps the first occurrence of each element (`jsDedup`).
-/

set_option maxRecDepth 200000
set_option maxHeartbeats 2000000

namespace PitchPlease

/-- `NOTE_NAMES` from the source: the twelve chromatic note names
`C C# D D# E F F# G G# A A# B` (written split so the literal stays readable). -/
def NOTE_NAMES : List String :=
  ["C", "C#", "D", "D#", "E", "F"] ++ ["F#", "G", "G#", "A", "A#", "B"]

/-- JS `Math.round`: round half toward positive infinity. -/
def jsRound (q : ℚ) : ℤ := ⌊q + 1/2⌋

/-- `midiToPitchClass(midi) { return Math.round(midi) % 12 }` — JS `%` is the
truncated remainder (`Int.tmod`), which is negative for negative dividends. -/
def midiToPitchClass (midi : ℚ) : ℤ := Int.tmod (jsRound midi) 12

/-- Helper for `jsDedup`: keep elements not yet seen, first occurrence wins. -/
def dedupAux : List ℤ → List ℤ → List ℤ
  | _, [] => []
  | seen, a :: l => if seen.contains a then dedupAux seen l else a :: dedupAux (a :: seen) l

/-- `[...new Set(l)]`: deduplicate keeping first occurrences (JS `Set`
preserves insertion order). -/
def jsDedup (l : List ℤ) : List ℤ := dedupAux [] l

/-- `[...new Set(pitchClasses)].sort((a, b) => a - b)` from `matchChord`. -/
def canonPcs (l : List ℤ) : List ℤ := List.insertionSort (· ≤ ·) (jsDedup l)

/-- The `CHORDS` catalog: (displayName, abbreviation, intervals), in source
order. -/
def CHORDS : List (String × String × List ℤ) :=
  [("Major", "", [4, 7]),
   ("Minor", "m", [3, 7]),
   ("Dim", "dim", [3, 6]),
   ("Aug", "aug", [4, 8]),
   ("Sus4", "sus4", [5, 7]),
   ("Sus2", "sus2", [2, 7]),
   ("5", "5", [7]),
   ("Maj7", "maj7", [4, 7, 11]),
   ("7", "7", [4, 7, 10]),
   ("m7", "m7", [3, 7, 10]),
   ("m(maj7)", "m(maj7)", [3, 7, 11]),
   ("dim7", "dim7", [3, 6, 9]),
   ("ø7", "ø7", [3, 6, 10]),
   ("aug7", "aug7", [4, 8, 10]),
   ("6", "6", [4, 7, 9]),
   ("m6", "m6", [3, 7, 9]),
   ("add9", "add9", [2, 4, 7]),
   ("madd9", "madd9", [2, 3, 7]),
   ("9", "9", [4, 7, 10, 2]),
   ("m9", "m9", [3, 7, 10, 2]),
   ("maj9", "maj9", [4, 7, 11, 2]),
   ("11", "11", [4, 7, 10, 2, 5]),
   ("13", "13", [4, 7, 10, 2, 9])]

/-- The chord-match record returned by `matchChord`. -/
structure ChordMatch where
  root : String
  rootPc : ℤ
  name : String
  abbr : String
  full : String
deriving DecidableEq, Repr

/-- Build the match record the source builds inline:
`{ root: NOTE_NAMES[root], rootPc: root, name, abbrev, full: NOTE_NAMES[root] + abbrev }`. -/
def mkChordMatch (root : ℤ) (name abbr : String) : ChordMatch :=
  ⟨NOTE_NAMES.getD root.toNat "", root, name, abbr, NOTE_NAMES.getD root.toNat "" ++ abbr⟩

/-- The interval list for root index `i`:
`pcs.filter((_, j) => j !== i).map(p => ((p - root) % 12 + 12) % 12).filter(x => x > 0).sort((a,b) => a-b)`. -/
def intervalsOf (pcs : List ℤ) (i : ℕ) : List ℤ :=
  let root := pcs.getD i 0
  List.insertionSort (· ≤ ·)
    (((pcs.eraseIdx i).map (fun p => Int.tmod (Int.tmod (p - root) 12 + 12) 12)).filter
      (fun x => 0 < x))

/-- `matches / template.length - (intervals.length - matches) * 0.1` where
`matches = template.filter(t => intervals.includes(t)).length`. -/
def chordScore (intervals : List ℤ) (template : List ℤ) : ℚ :=
  let hits : ℚ := (template.filter (fun t => intervals.contains t)).length
  hits / template.length - ((intervals.length : ℚ) - hits) * (1/10)

/-- The body of `matchChord` after input normalization: `best = null,
bestScore = 0.5`, the nested loop over root indices and catalog templates
with `if (score > bestScore) { bestScore = score; best = ... }`, returning
`best`. -/
def matchCore (pcs : List ℤ) : Option ChordMatch :=
  ((List.range pcs.length).foldl (fun st i =>
      CHORDS.foldl (fun st ct =>
          let score := chordScore (intervalsOf pcs i) ct.2.2
          if score > st.2 then (some (mkChordMatch (pcs.getD i 0) ct.1 ct.2.1), score) else st)
        st)
    ((none : Option ChordMatch), (1/2 : ℚ))).1

/-- The selection fold of `matchChord`, abstracted over a flat candidate
sequence (used to analyse `matchCore`, whose nested loops fold exactly this
over the flattened sequence). -/
def selFold (init : Option ChordMatch × ℚ) (cands : List (ChordMatch × ℚ)) :
    Option ChordMatch × ℚ :=
  cands.foldl (fun st c => if c.2 > st.2 then (some c.1, c.2) else st) init

/-- The candidate sequence of `matchChord`'s double loop: roots in `pcs`
order (ascending after the sort), templates in catalog order, each paired
with its score. -/
def chordCands (pcs : List ℤ) : List (ChordMatch × ℚ) :=
  (List.range pcs.length).flatMap (fun i =>
    CHORDS.map (fun ct =>
      (mkChordMatch (pcs.getD i 0) ct.1 ct.2.1, chordScore (intervalsOf pcs i) ct.2.2)))

/-- Modelled from the spec: the maximum candidate score, starting from the
baseline `0.5`. -/
def candMax (pcs : List ℤ) : ℚ :=
  (chordCands pcs).foldl (fun mx c => max mx c.2) (1/2)

/-- Modelled from the spec: "a template is only reported if its score
strictly exceeds 0.5, and also strictly exceeds every previously found
candidate's score" — the reported pair is the first candidate (ascending
root, then catalog order) attaining the maximum score, provided that
maximum strictly exceeds the 0.5 baseline; ties never override an earlier
winner. -/
def specChordSelect (pcs : List ℤ) : Option ChordMatch :=
  if 1/2 < candMax pcs then
    ((chordCands pcs).find? (fun c => decide (c.2 = candMax pcs))).map Prod.fst
  else none

/-- `matchChord(pitchClasses)`: `null`/absent input and inputs with fewer
than 2 entries (raw, then deduplicated) return `null`. -/
def matchChord : Option (List ℤ) → Option ChordMatch
  | none => none
  | some l =>
    if l.length < 2 then none
    else
      let pcs := canonPcs l
      if pcs.length < 2 then none else matchCore pcs

/-! ## Peak extractor (`loop`, lines 209–220) -/

/-- Parabolic sub-bin offset:
`d = 2*(prev - 2*cur + next); off = |d| > 0.0001 ? clamp((prev-next)/d, -0.5, 0.5) : 0`. -/
def peakOffset (prev cur next : ℚ) : ℚ :=
  let d := 2 * (prev - 2 * cur + next)
  if |d| > 1/10000 then max (-(1/2)) (min (1/2) ((prev - next) / d)) else 0

/-- The peak-scan loop body over the remaining interior indices; the loop
condition `peakCount < maxPeaks` stops the whole scan once the cap is hit. -/
def peaksAux (s : List ℚ) (t : ℚ) : List ℕ → ℕ → List (ℚ × ℚ)
  | [], _ => []
  | _ :: _, 0 => []
  | i :: is, cap + 1 =>
    if s.getD i 0 > t ∧ s.getD i 0 > s.getD (i - 1) 0 ∧ s.getD i 0 > s.getD (i + 1) 0 then
      ((i : ℚ) + peakOffset (s.getD (i - 1) 0) (s.getD i 0) (s.getD (i + 1) 0), s.getD i 0)
        :: peaksAux s t is cap
    else peaksAux s t is (cap + 1)

/-- `for (i = 1; i < binCount - 1 && peakCount < maxPeaks; i++)`: scan the
interior bins `1 .. binCount-2` collecting `(position, energy)` pairs. -/
def findPeaks (s : List ℚ) (t : ℚ) (maxPeaks : ℕ) : List (ℚ × ℚ) :=
  peaksAux s t (List.range' 1 (s.length - 2)) maxPeaks

/-! ## Noise floor (`loop`, lines 195–207) -/

/-- `maxE = 0; for (...) if (raw[i] > maxE) maxE = raw[i]`. -/
def frameMax (s : List ℚ) : ℚ := s.foldl (fun m x => if x > m then x else m) 0

/-- The stride-10 sample indices `0, 10, 20, …` below `binCount`. -/
def strideIdx (n : ℕ) : List ℕ := (List.range n).filter (fun i => i % 10 = 0)

/-- `sum`/`cnt` accumulation over the stride-10 bins whose magnitude is below
`0.3 * maxE`. -/
def floorAccum (s : List ℚ) : ℚ × ℕ :=
  (strideIdx s.length).foldl
    (fun p i => if s.getD i 0 < frameMax s * (3/10) then (p.1 + s.getD i 0, p.2 + 1) else p)
    (0, 0)

/-- `(cnt ? sum / cnt : 0)` — the per-frame floor estimate. -/
def floorEstimate (s : List ℚ) : ℚ :=
  let p := floorAccum s
  if p.2 ≠ 0 then p.1 / (p.2 : ℚ) else 0

/-- `noiseFloor = noiseFloor * 0.95 + (cnt ? sum / cnt : 0) * 0.05`. -/
def noiseFloorStep (s : List ℚ) (nf : ℚ) : ℚ :=
  nf * (95/100) + floorEstimate s * (5/100)

/-- `threshold = Math.min(255, noiseFloor * 3)`. -/
def activeThreshold (nf : ℚ) : ℚ := min 255 (nf * 3)

/-! ## Harmonic sieve (`loop`, lines 222–260)

The sieve is parametric in `log2q : ℕ → ℚ`, the value of `Math.log2(n)` for
harmonic orders `n` (a double, hence rational); theorems constrain it by the
bounds the actual doubles satisfy.  `scores[i] = s * Math.sqrt(h)` and all
later comparisons of scores are modelled through squares: every `s` here is
a sum of nonnegative spectrum magnitudes, and for `0 ≤ s₁, s₂`,
`s₁ * sqrt h₁ < s₂ * sqrt h₂ ↔ s₁^2 * h₁ < s₂^2 * h₂`; likewise the
normalization `scores[i] /= maxS` and the selection threshold `0.3` square
to `· / maxS²` and `0.09`.  This order-preserving reparametrization keeps
every comparison the source makes and keeps the model executable. -/

/-- Inner scan of `for (j = 0; j < peakCount; j++) ... break`: first `j ≠ i`
whose MIDI is within 0.5 semitones of the expected harmonic. -/
def harmSearch (midis : List ℚ) (i : ℕ) (e : ℚ) : List ℕ → Option ℕ
  | [] => none
  | j :: js =>
    if j ≠ i ∧ |midis.getD j 0 - e| < 1/2 then some j else harmSearch midis i e js

/-- First other peak matching the expected harmonic position `e`. -/
def findHarm (midis : List ℚ) (i : ℕ) (e : ℚ) : Option ℕ :=
  harmSearch midis i e (List.range midis.length)

/-- One harmonic order `n`: on a match `s += energies[j]/n; h++`. -/
def harmStep (log2q : ℕ → ℚ) (midis energies : List ℚ) (i : ℕ) (sh : ℚ × ℕ) (n : ℕ) :
    ℚ × ℕ :=
  match findHarm midis i (midis.getD i 0 + 12 * log2q n) with
  | some j => (sh.1 + energies.getD j 0 / (n : ℚ), sh.2 + 1)
  | none => sh

/-- `let s = peakEnergies[i], h = 1; for (n = 2; n <= numHarmonics; n++) ...`. -/
def harmFold (log2q : ℕ → ℚ) (numH : ℕ) (midis energies : List ℚ) (i : ℕ) : ℚ × ℕ :=
  (List.range' 2 (numH - 1)).foldl (harmStep log2q midis energies i) (energies.getD i 0, 1)

/-- Squared harmonic-support score of peak `i`; `0` when its MIDI is outside
`[24, 96]` (`if (m < 24 || m > 96) continue`). -/
def scoreSq (log2q : ℕ → ℚ) (numH : ℕ) (midis energies : List ℚ) (i : ℕ) : ℚ :=
  if 24 ≤ midis.getD i 0 ∧ midis.getD i 0 ≤ 96 then
    let sh := harmFold log2q numH midis energies i
    sh.1 ^ 2 * (sh.2 : ℚ)
  else 0

/-- All squared scores, in peak order. -/
def scoresSq (log2q : ℕ → ℚ) (numH : ℕ) (midis energies : List ℚ) : List ℚ :=
  (List.range midis.length).map (scoreSq log2q numH midis energies)

/-- `maxS = 0; for (...) if (scores[i] > maxS) maxS = scores[i]` (squared). -/
def maxScoreSq (log2q : ℕ → ℚ) (numH : ℕ) (midis energies : List ℚ) : ℚ :=
  (scoresSq log2q numH midis energies).foldl (fun m x => if x > m then x else m) 0

/-- `if (maxS > 0) for (...) scores[i] /= maxS` (squared). -/
def normScoresSq (log2q : ℕ → ℚ) (numH : ℕ) (midis energies : List ℚ) : List ℚ :=
  let sc := scoresSq log2q numH midis energies
  let mx := maxScoreSq log2q numH midis energies
  if mx > 0 then sc.map (· / mx) else sc

/-- `let bi = -1, bs = 0.3; for (...) if (!used[i] && scores[i] > bs) ...`
(squared: `0.3²  = 0.09`). -/
def pickAux (scores : List ℚ) (used : List Bool) :
    List ℕ → Option ℕ × ℚ → Option ℕ × ℚ
  | [], st => st
  | i :: is, st =>
    pickAux scores used is
      (if used.getD i false = false ∧ scores.getD i 0 > st.2 then (some i, scores.getD i 0)
       else st)

/-- Best unused peak with (squared) normalized score above (squared) `0.3`. -/
def pickBest (scores : List ℚ) (used : List Bool) : Option ℕ × ℚ :=
  pickAux scores used (List.range scores.length) (none, 9/100)

/-- On selection: `used[bi] = 1` has already been applied; mark every peak
within 0.5 semitones of an expected harmonic of the chosen fundamental. -/
def markUsed (log2q : ℕ → ℚ) (numH : ℕ) (midis : List ℚ) (fm : ℚ) (used : List Bool) :
    List Bool :=
  (List.range midis.length).map (fun j =>
    used.getD j false ||
      (List.range' 2 (numH - 1)).any (fun n =>
        decide (|midis.getD j 0 - (fm + 12 * log2q n)| < 1/2)))

/-- `while (fundCount < maxFundamentals) { ... }` — fuel is the remaining
fundamental capacity. -/
def selectLoop (log2q : ℕ → ℚ) (numH : ℕ) (midis : List ℚ) (normScores : List ℚ) :
    ℕ → List Bool → List ℚ
  | 0, _ => []
  | fuel + 1, used =>
    match (pickBest normScores used).1 with
    | none => []
    | some bi =>
      midis.getD bi 0 ::
        selectLoop log2q numH midis normScores fuel
          (markUsed log2q numH midis (midis.getD bi 0) (used.set bi true))

/-- The harmonic sieve: from peak MIDI values and energies to the selected
fundamentals, in selection order. -/
def sieve (log2q : ℕ → ℚ) (numH maxF : ℕ) (midis energies : List ℚ) : List ℚ :=
  selectLoop log2q numH midis (normScoresSq log2q numH midis energies) maxF
    (List.replicate midis.length false)

/-- The IEEE-double values of `Math.log2(n)` for the harmonic orders used
(`n = 2 … 6`), as exact decimals of their shortest round-trip printing
(`Math.log2(3) = 1.584962500721156`, `Math.log2(5) = 2.321928094887362`,
`Math.log2(6) = 2.584962500721156`); they agree with the doubles to well
below every 0.5-semitone decision margin of the sieve. -/
def log2d : ℕ → ℚ
  | 2 => 1
  | 3 => 1584962500721156/1000000000000000
  | 4 => 2
  | 5 => 2321928094887362/1000000000000000
  | 6 => 2584962500721156/1000000000000000
  | _ => 0

/-! ## Stability gate (`loop`, lines 267–270)

History entries are the canonical pitch-class lists themselves; the source
stores the comma-joined string `uniquePcs.join(',')`, an injective encoding
of these lists, and compares entries only for equality. -/

/-- `history.unshift(key); if (history.length > stabilityFrames) history.pop()`. -/
def stabPush (sf : ℕ) (hist : List (List ℤ)) (pcs : List ℤ) : List (List ℤ) :=
  let h := pcs :: hist
  if sf < h.length then h.dropLast else h

/-- `stable = history.length >= stabilityFrames && history.every(h => h === history[0])`. -/
def stableOf (sf : ℕ) (hist : List (List ℤ)) : Bool :=
  decide (sf ≤ hist.length ∧ ∀ x ∈ hist, x = hist.headD [])

/-- The stability window after feeding `inputs` in order, starting empty. -/
def stabRun (sf : ℕ) (inputs : List (List ℤ)) : List (List ℤ) :=
  inputs.foldl (stabPush sf) []

/-! ## Chord-change emission (`loop`, lines 272–279) -/

/-- Detector state the emission logic threads across frames. -/
structure DetState where
  hist : List (List ℤ)
  lastChord : Option ChordMatch
deriving Repr

/-- Initial detector state: empty history, `lastChord = null`. -/
def initState : DetState := ⟨[], none⟩

/-- One frame: push the pitch-class set, compute `stable`, then
`if (stable && uniquePcs.length >= 2) { const chord = matchChord(uniquePcs);
if (chord && chord.full !== lastChord?.full) { lastChord = chord; onChord(chord); } }`.
Returns the new state and the chord passed to `onChord` (if any). -/
def detStep (sf : ℕ) (st : DetState) (pcs : List ℤ) : DetState × Option ChordMatch :=
  let hist := stabPush sf st.hist pcs
  if stableOf sf hist = true ∧ 2 ≤ pcs.length then
    match matchChord (some pcs) with
    | some c =>
      if some c.full ≠ st.lastChord.map ChordMatch.full then (⟨hist, some c⟩, some c)
      else (⟨hist, st.lastChord⟩, none)
    | none => (⟨hist, st.lastChord⟩, none)
  else (⟨hist, st.lastChord⟩, none)

/-- Run frames from a state, collecting the chords emitted via `onChord` in
order. -/
def emitsFrom (sf : ℕ) (st : DetState) : List (List ℤ) → List ChordMatch
  | [] => []
  | pcs :: rest =>
    match detStep sf st pcs with
    | (st', some c) => c :: emitsFrom sf st' rest
    | (st', none) => emitsFrom sf st' rest

/-- All chord-change events over a frame sequence, from the initial state. -/
def detEmits (sf : ℕ) (inputs : List (List ℤ)) : List ChordMatch :=
  emitsFrom sf initState inputs

/-! ## Basic lemmas about deduplication and canonicalization -/

theorem mem_dedupAux {x : ℤ} : ∀ {seen l : List ℤ}, x ∈ dedupAux seen l ↔ x ∈ l ∧ x ∉ seen
  | _, [] => by simp [dedupAux]
  | seen, a :: l => by
    rw [dedupAux]
    by_cases h : seen.contains a
    · have ha : a ∈ seen := by simpa using h
      rw [if_pos h, mem_dedupAux]
      by_cases hxa : x = a
      · subst hxa; simp [ha]
      · simp only [List.mem_cons, hxa, false_or]
    · have ha : a ∉ seen := by simpa using h
      rw [if_neg h]
      simp only [List.mem_cons, mem_dedupAux]
      by_cases hxa : x = a
      · subst hxa; simp [ha]
      · simp only [hxa, false_or, List.mem_cons]

theorem nodup_dedupAux : ∀ (seen l : List ℤ), (dedupAux seen l).Nodup
  | _, [] => List.nodup_nil
  | seen, a :: l => by
    rw [dedupAux]
    by_cases h : seen.contains a
    · rw [if_pos h]; exact nodup_dedupAux seen l
    · rw [if_neg h]
      exact List.Nodup.cons
        (fun hmem => (mem_dedupAux.mp hmem).2 (List.mem_cons_self a seen))
        (nodup_dedupAux (a :: seen) l)

theorem dedupAux_eq_self : ∀ {seen l : List ℤ}, l.Nodup → (∀ x ∈ l, x ∉ seen) →
    dedupAux seen l = l
  | _, [], _, _ => rfl
  | seen, a :: l, hn, hs => by
    have ha : ¬ seen.contains a = true := by
      simpa using hs a (List.mem_cons_self a l)
    rw [dedupAux, if_neg ha]
    refine congrArg (a :: ·) (dedupAux_eq_self (List.nodup_cons.mp hn).2 ?_)
    intro x hx
    simp only [List.mem_cons, not_or]
    exact ⟨fun hxa => (List.nodup_cons.mp hn).1 (hxa ▸ hx), hs x (List.mem_cons_of_mem _ hx)⟩

theorem length_dedupAux_le : ∀ (seen l : List ℤ), (dedupAux seen l).length ≤ l.length
  | _, [] => Nat.le_refl _
  | seen, a :: l => by
    by_cases h : seen.contains a
    · rw [dedupAux, if_pos h]
      exact Nat.le_succ_of_le (length_dedupAux_le seen l)
    · rw [dedupAux, if_neg h]
      exact Nat.succ_le_succ (length_dedupAux_le (a :: seen) l)

theorem mem_jsDedup {x : ℤ} {l : List ℤ} : x ∈ jsDedup l ↔ x ∈ l := by
  simp [jsDedup, mem_dedupAux]

theorem jsDedup_nodup (l : List ℤ) : (jsDedup l).Nodup := nodup_dedupAux [] l

theorem jsDedup_eq_self {l : List ℤ} (h : l.Nodup) : jsDedup l = l :=
  dedupAux_eq_self h (by simp)

theorem canonPcs_nodup (l : List ℤ) : (canonPcs l).Nodup :=
  ((List.perm_insertionSort (· ≤ ·) (jsDedup l)).nodup_iff).mpr (jsDedup_nodup l)

theorem canonPcs_sorted (l : List ℤ) : List.Sorted (· < ·) (canonPcs l) :=
  (List.sorted_insertionSort (· ≤ ·) (jsDedup l)).lt_of_le (canonPcs_nodup l)

theorem canonPcs_eq_self {l : List ℤ} (h : List.Sorted (· < ·) l) : canonPcs l = l := by
  rw [canonPcs, jsDedup_eq_self h.nodup, (h.le_of_lt).insertionSort_eq]

theorem canonPcs_idem (l : List ℤ) : canonPcs (canonPcs l) = canonPcs l :=
  canonPcs_eq_self (canonPcs_sorted l)

theorem canonPcs_length_le (l : List ℤ) : (canonPcs l).length ≤ l.length := by
  rw [canonPcs, List.length_insertionSort]
  exact length_dedupAux_le [] l

theorem canonPcs_length_eq_card (l : List ℤ) : (canonPcs l).length = l.toFinset.card := by
  have hperm := List.perm_insertionSort (· ≤ ·) (jsDedup l)
  rw [canonPcs, hperm.length_eq]
  rw [← List.toFinset_card_of_nodup (jsDedup_nodup l)]
  congr 1
  ext x
  simp [mem_jsDedup]

/-! ## C6: insufficient input returns no match -/

/-- **C6.** For every input to `matchChord` that is absent (`null`/`undefined`)
or contains fewer than 2 distinct pitch classes (including the empty list and
lists of duplicates of one class), `matchChord` returns none, as an absence
value rather than an exception. -/
theorem matchChord_insufficient_none :
    matchChord none = none ∧
      ∀ l : List ℤ, l.toFinset.card < 2 → matchChord (some l) = none := by
  refine ⟨rfl, fun l h => ?_⟩
  have hc : (canonPcs l).length < 2 := by rw [canonPcs_length_eq_card]; exact h
  by_cases h2 : l.length < 2 <;> simp [matchChord, h2, hc]

/-- Witness for C6 at the concrete inputs `[5,5,5]` (one distinct class) and
`[]`. -/
theorem matchChord_insufficient_none_witness :
    (([5, 5, 5] : List ℤ).toFinset.card < 2 ∧ matchChord (some [5, 5, 5]) = none) ∧
      (([] : List ℤ).toFinset.card < 2 ∧ matchChord (some []) = none) :=
  ⟨⟨by decide, matchChord_insufficient_none.2 [5, 5, 5] (by decide)⟩,
   ⟨by decide, matchChord_insufficient_none.2 [] (by decide)⟩⟩

/-! ## C9: a two-note input that does match -/

/-- **C9.** There is an input with exactly 2 distinct pitch classes for which
`matchChord` returns a non-null match: `{0, 7}` yields root `"C"`,
abbreviation `"5"`, full `"C5"` (the bare-fifth template is fully covered),
so two-note inputs do not uniformly return none. -/
theorem two_note_fifth_matches :
    matchChord (some [0, 7]) = some ⟨"C", 0, "5", "5", "C5"⟩ ∧
      ([0, 7] : List ℤ).toFinset.card = 2 := by
  constructor
  · with_unfolding_all decide
  · decide

/-! ## C7: pitch class of a midi value -/

/-- **C7 counterexample.** The claim "for every midi value,
`midiToPitchClass(midi)` equals `round(midi) mod 12` and is an integer in
`[0,11]`" fails for negative midi: at `midi = -1.3` the code returns `-1`
(JS `%` keeps the dividend's sign), which is not in `[0,11]` and differs
from the mathematical `round(midi) mod 12 = 11`. -/
theorem midiToPitchClass_counterexample :
    midiToPitchClass (-13/10) = -1 ∧
      ¬ (0 ≤ midiToPitchClass (-13/10)) ∧
      jsRound (-13/10) % 12 = 11 := by
  refine ⟨?_, ?_, ?_⟩ <;> with_unfolding_all decide

/-- **C7 (amended).** For every midi value whose JS-rounded value is
nonnegative (equivalently `midi ≥ -0.5`), `midiToPitchClass(midi)` equals
`round(midi) mod 12` and is an integer in the range `[0,11]`. -/
theorem midiToPitchClass_nonneg_spec (midi : ℚ) (h : 0 ≤ jsRound midi) :
    midiToPitchClass midi = jsRound midi % 12 ∧
      0 ≤ midiToPitchClass midi ∧ midiToPitchClass midi ≤ 11 := by
  have heq : midiToPitchClass midi = jsRound midi % 12 := by
    rw [midiToPitchClass]
    obtain ⟨n, hn⟩ := Int.eq_ofNat_of_zero_le h
    rw [hn]
    rfl
  refine ⟨heq, ?_, ?_⟩ <;> rw [heq]
  · exact Int.emod_nonneg _ (by norm_num)
  · have := Int.emod_lt_of_pos (jsRound midi) (show (0:ℤ) < 12 by norm_num)
    omega

/-- Witness for C7 (amended) at `midi = 60.5` (rounds to 61, pitch class 1). -/
theorem midiToPitchClass_nonneg_spec_witness :
    0 ≤ jsRound (121/2) ∧
      (midiToPitchClass (121/2) = jsRound (121/2) % 12 ∧
        0 ≤ midiToPitchClass (121/2) ∧ midiToPitchClass (121/2) ≤ 11) :=
  ⟨by with_unfolding_all decide,
   midiToPitchClass_nonneg_spec (121/2) (by with_unfolding_all decide)⟩

/-! ## C10: noise floor on frames with no below-threshold stride bin -/

/-- **C10.** On every frame in which no stride-10-sampled bin has magnitude
strictly below `0.3 ×` the frame maximum (in particular every all-zero
silent frame), the per-frame floor estimate is 0, the noise floor is updated
to `noiseFloor * 0.95`, and the active threshold is
`min(255, 0.95·noiseFloor · 3)` — a geometric decay rather than an
undefined mean. -/
theorem noise_floor_silent_decay (s : List ℚ) (nf : ℚ)
    (h : ∀ i ∈ strideIdx s.length, ¬ s.getD i 0 < frameMax s * (3/10)) :
    floorEstimate s = 0 ∧
      noiseFloorStep s nf = nf * (95/100) ∧
      activeThreshold (noiseFloorStep s nf) = min 255 (nf * (95/100) * 3) := by
  have hacc : floorAccum s = (0, 0) := by
    rw [floorAccum]
    generalize hidx : strideIdx s.length = idxs at h
    clear hidx
    induction idxs with
    | nil => rfl
    | cons i is ih =>
      rw [List.foldl_cons, if_neg (h i (List.mem_cons_self i is))]
      exact ih fun j hj => h j (List.mem_cons_of_mem i hj)
  have hest : floorEstimate s = 0 := by simp [floorEstimate, hacc]
  have hstep : noiseFloorStep s nf = nf * (95/100) := by
    rw [noiseFloorStep, hest]; ring
  exact ⟨hest, hstep, by rw [hstep, activeThreshold]⟩

/-- Witness for C10 at an all-zero (silent) frame: no magnitude is strictly
below `0.3 × 0`, the floor estimate is 0 and the noise floor decays. -/
theorem noise_floor_silent_decay_witness :
    (∀ i ∈ strideIdx (List.replicate 25 (0:ℚ)).length,
        ¬ (List.replicate 25 (0:ℚ)).getD i 0 <
            frameMax (List.replicate 25 (0:ℚ)) * (3/10)) ∧
      (floorEstimate (List.replicate 25 (0:ℚ)) = 0 ∧
        noiseFloorStep (List.replicate 25 (0:ℚ)) 8 = 8 * (95/100) ∧
        activeThreshold (noiseFloorStep (List.replicate 25 (0:ℚ)) 8) =
          min 255 (8 * (95/100) * 3)) :=
  ⟨by with_unfolding_all decide,
   noise_floor_silent_decay (List.replicate 25 (0:ℚ)) 8 (by with_unfolding_all decide)⟩

/-! ## C5: invariance under input order and duplicates -/

/-- **C5.** `matchChord` is invariant to input order and duplicate entries:
every input gives the result of its sorted deduplicated form; in particular
`{0,4,7}`, `{4,7,0}` and `{0,0,4,4,7,7}` all match root `"C"`,
abbreviation `""`, full `"C"`. -/
theorem matchChord_canonical_invariance (l : List ℤ) :
    matchChord (some l) = matchChord (some (canonPcs l)) ∧
      matchChord (some [0, 4, 7]) = some ⟨"C", 0, "Major", "", "C"⟩ ∧
      matchChord (some [4, 7, 0]) = some ⟨"C", 0, "Major", "", "C"⟩ ∧
      matchChord (some [0, 0, 4, 4, 7, 7]) = some ⟨"C", 0, "Major", "", "C"⟩ := by
  refine ⟨?_, by with_unfolding_all decide, by with_unfolding_all decide,
    by with_unfolding_all decide⟩
  by_cases h2 : l.length < 2
  · have hc2 : (canonPcs l).length < 2 := lt_of_le_of_lt (canonPcs_length_le l) h2
    simp [matchChord, h2, hc2]
  · by_cases hc : (canonPcs l).length < 2
    · simp [matchChord, h2, hc]
    · simp [matchChord, h2, hc, canonPcs_idem]

/-! ## C2: the peak extractor -/

theorem peaksAux_eq (s : List ℚ) (t : ℚ) : ∀ (idxs : List ℕ) (cap : ℕ),
    peaksAux s t idxs cap =
      ((idxs.filter (fun i => decide (s.getD i 0 > t ∧ s.getD i 0 > s.getD (i - 1) 0 ∧
          s.getD i 0 > s.getD (i + 1) 0))).take cap).map
        (fun (i : ℕ) => ((i : ℚ) + peakOffset (s.getD (i - 1) 0) (s.getD i 0) (s.getD (i + 1) 0),
          s.getD i 0))
  | [], cap => by simp [peaksAux]
  | _ :: _, 0 => by simp [peaksAux]
  | i :: is, cap + 1 => by
    rw [peaksAux]
    by_cases hc : s.getD i 0 > t ∧ s.getD i 0 > s.getD (i - 1) 0 ∧ s.getD i 0 > s.getD (i + 1) 0
    · rw [if_pos hc, List.filter_cons_of_pos (by simpa using hc), List.take_succ_cons,
        List.map_cons]
      exact congrArg _ (peaksAux_eq s t is cap)
    · rw [if_neg hc, List.filter_cons_of_neg (by simpa using hc)]
      exact peaksAux_eq s t is (cap + 1)

/-- **C2.** For every spectrum and threshold, the peak extractor reports
exactly the interior bins `1 ≤ i ≤ binCount-2` that strictly exceed the
threshold and both neighbours, in ascending bin order, capped at `maxPeaks`
keeping the earliest; each peak's position is
`i + clamp((s[i-1]-s[i+1])/d, -0.5, 0.5)` with
`d = 2*(s[i-1] - 2*s[i] + s[i+1])` (offset 0 when `|d| ≤ 1e-4`) and its
energy is the uninterpolated `s[i]`. -/
theorem peak_extraction_spec (s : List ℚ) (t : ℚ) (mp : ℕ) :
    findPeaks s t mp =
      (((List.range' 1 (s.length - 2)).filter
          (fun i => decide (s.getD i 0 > t ∧ s.getD i 0 > s.getD (i - 1) 0 ∧
            s.getD i 0 > s.getD (i + 1) 0))).take mp).map
        (fun (i : ℕ) =>
          ((i : ℚ) +
            (if |2 * (s.getD (i - 1) 0 - 2 * s.getD i 0 + s.getD (i + 1) 0)| > 1/10000 then
              max (-(1/2)) (min (1/2)
                ((s.getD (i - 1) 0 - s.getD (i + 1) 0) /
                  (2 * (s.getD (i - 1) 0 - 2 * s.getD i 0 + s.getD (i + 1) 0))))
            else 0),
          s.getD i 0)) := by
  rw [findPeaks, peaksAux_eq]
  rfl

/-! ## C4: the stability window -/

theorem stabPush_eq_take (sf : ℕ) (hist : List (List ℤ)) (pcs : List ℤ)
    (h : hist.length ≤ sf) : stabPush sf hist pcs = (pcs :: hist).take sf := by
  simp only [stabPush]
  by_cases hl : sf < (pcs :: hist).length
  · rw [if_pos hl, List.dropLast_eq_take]
    have hlen : (pcs :: hist).length - 1 = sf := by
      simp only [List.length_cons] at hl ⊢; omega
    rw [hlen]
  · rw [if_neg hl]
    exact (List.take_of_length_le (Nat.le_of_not_lt hl)).symm

theorem stabRun_eq_take (sf : ℕ) (h1 : 1 ≤ sf) (inputs : List (List ℤ)) :
    stabRun sf inputs = inputs.reverse.take sf := by
  induction inputs using List.reverseRecOn with
  | nil => simp [stabRun]
  | append_singleton l a ih =>
    have hstep : stabRun sf (l ++ [a]) = stabPush sf (stabRun sf l) a := by
      rw [stabRun, stabRun, List.foldl_append, List.foldl_cons, List.foldl_nil]
    have hlen : (stabRun sf l).length ≤ sf := by
      rw [ih, List.length_take]; exact min_le_left _ _
    rw [hstep, stabPush_eq_take sf _ a hlen, ih, List.reverse_append]
    simp only [List.reverse_cons, List.reverse_nil, List.nil_append, List.singleton_append]
    obtain ⟨k, rfl⟩ : ∃ k, sf = k + 1 := ⟨sf - 1, by omega⟩
    rw [List.take_succ_cons, List.take_succ_cons, List.take_take,
      min_eq_left (Nat.le_succ k)]

/-- **C4.** The stability window never exceeds `stabilityFrames` entries; a
frame is stable iff the window holds exactly `stabilityFrames` entries all
equal to the newest; `N < stabilityFrames` identical sets never report
stable; exactly `stabilityFrames` identical sets report stable on the
`stabilityFrames`-th frame; and a frame whose set differs from the previous
frame's keeps the following `stabilityFrames - 1` frames (itself included)
not stable. -/
theorem stability_window_spec (sf : ℕ) (h1 : 1 ≤ sf) :
    (∀ inputs, (stabRun sf inputs).length ≤ sf) ∧
      (∀ inputs pcs,
        stableOf sf (stabRun sf (inputs ++ [pcs])) = true ↔
          (stabRun sf (inputs ++ [pcs])).length = sf ∧
            ∀ x ∈ stabRun sf (inputs ++ [pcs]), x = pcs) ∧
      (∀ (pcs : List ℤ) (n : ℕ), n < sf →
        stableOf sf (stabRun sf (List.replicate n pcs)) = false) ∧
      (∀ pcs : List ℤ, stableOf sf (stabRun sf (List.replicate sf pcs)) = true) ∧
      (∀ (pre : List (List ℤ)) (a b : List ℤ) (post : List (List ℤ)), a ≠ b →
        post.length + 2 ≤ sf →
        stableOf sf (stabRun sf (pre ++ [a, b] ++ post)) = false) := by
  obtain ⟨k, rfl⟩ : ∃ k, sf = k + 1 := ⟨sf - 1, by omega⟩
  have hbound : ∀ inputs : List (List ℤ), (stabRun (k + 1) inputs).length ≤ k + 1 := by
    intro inputs
    rw [stabRun_eq_take _ h1, List.length_take]
    exact min_le_left _ _
  refine ⟨hbound, ?_, ?_, ?_, ?_⟩
  · intro inputs pcs
    rw [stabRun_eq_take _ h1, List.reverse_append]
    simp only [List.reverse_cons, List.reverse_nil, List.nil_append, List.singleton_append,
      List.take_succ_cons]
    rw [stableOf, decide_eq_true_eq]
    simp only [List.headD_cons, List.length_cons, List.length_take]
    constructor
    · rintro ⟨hle, hall⟩
      exact ⟨by omega, hall⟩
    · rintro ⟨hlen, hall⟩
      exact ⟨by omega, hall⟩
  · intro pcs n hn
    rw [stabRun_eq_take _ h1, List.reverse_replicate, List.take_replicate,
      min_eq_right (by omega)]
    apply decide_eq_false
    rintro ⟨hle, -⟩
    rw [List.length_replicate] at hle
    omega
  · intro pcs
    rw [stabRun_eq_take _ h1, List.reverse_replicate, List.take_replicate, min_self]
    apply decide_eq_true
    refine ⟨by rw [List.length_replicate], fun x hx => ?_⟩
    rw [List.eq_of_mem_replicate hx]
    rfl
  · intro pre a b post hab hpost
    rw [stabRun_eq_take _ h1, List.reverse_append, List.reverse_append]
    simp only [List.reverse_cons, List.reverse_nil, List.nil_append, List.singleton_append]
    have hrev : post.reverse.length = post.length := List.length_reverse post
    rw [List.take_append_eq_append_take, List.take_of_length_le (by omega), hrev]
    obtain ⟨m, hm⟩ : ∃ m, k + 1 - post.length = m + 2 := ⟨k - 1 - post.length, by omega⟩
    simp only [List.cons_append, List.nil_append]
    rw [hm, List.take_succ_cons, List.take_succ_cons]
    apply decide_eq_false
    rintro ⟨-, hall⟩
    have hA : a = _ := hall a (by simp)
    have hB : b = _ := hall b (by simp)
    exact hab (hA.trans hB.symm)

/-- Witness for C4 at `stabilityFrames = 4`: four identical frames are
stable, three are not. -/
theorem stability_window_spec_witness :
    (1 ≤ 4) ∧
      stableOf 4 (stabRun 4 (List.replicate 4 [0, 4, 7])) = true ∧
      stableOf 4 (stabRun 4 (List.replicate 3 [0, 4, 7])) = false :=
  ⟨by norm_num, (stability_window_spec 4 (by norm_num)).2.2.2.1 [0, 4, 7],
    (stability_window_spec 4 (by norm_num)).2.2.1 [0, 4, 7] 3 (by norm_num)⟩

/-! ## C8: edge-triggered chord-change events -/

theorem detStep_emit {sf : ℕ} {st : DetState} {pcs : List ℤ} {c : ChordMatch}
    (h : (detStep sf st pcs).2 = some c) :
    stableOf sf (stabPush sf st.hist pcs) = true ∧
      matchChord (some pcs) = some c ∧
      some c.full ≠ st.lastChord.map ChordMatch.full ∧
      (detStep sf st pcs).1.lastChord = some c := by
  have hd := h
  unfold detStep at hd
  by_cases hc : stableOf sf (stabPush sf st.hist pcs) = true ∧ 2 ≤ pcs.length
  case neg => rw [if_neg hc] at hd; exact absurd hd (by simp)
  rw [if_pos hc] at hd
  cases hm : matchChord (some pcs) with
  | none => rw [hm] at hd; exact absurd hd (by simp)
  | some c' =>
    rw [hm] at hd
    have hd' : (if some c'.full ≠ Option.map ChordMatch.full st.lastChord then
        ((⟨stabPush sf st.hist pcs, some c'⟩ : DetState), some c')
      else ((⟨stabPush sf st.hist pcs, st.lastChord⟩ : DetState), none)).2 = some c := hd
    by_cases hf : some c'.full ≠ Option.map ChordMatch.full st.lastChord
    · rw [if_pos hf] at hd'
      have hcc : c' = c := by simpa using hd'
      subst hcc
      refine ⟨hc.1, rfl, hf, ?_⟩
      unfold detStep
      rw [if_pos hc, hm]
      show (if some c'.full ≠ Option.map ChordMatch.full st.lastChord then
          ((⟨stabPush sf st.hist pcs, some c'⟩ : DetState), some c')
        else ((⟨stabPush sf st.hist pcs, st.lastChord⟩ : DetState), none)).1.lastChord = some c'
      rw [if_pos hf]
    · rw [if_neg hf] at hd'
      exact absurd hd' (by simp)

theorem detStep_noemit {sf : ℕ} {st : DetState} {pcs : List ℤ}
    (h : (detStep sf st pcs).2 = none) :
    (detStep sf st pcs).1.lastChord = st.lastChord := by
  by_cases hc : stableOf sf (stabPush sf st.hist pcs) = true ∧ 2 ≤ pcs.length
  · have h' := h
    unfold detStep at h' ⊢
    rw [if_pos hc] at h' ⊢
    cases hm : matchChord (some pcs) with
    | none => rfl
    | some c' =>
      rw [hm] at h'
      have h'' : (if some c'.full ≠ Option.map ChordMatch.full st.lastChord then
          ((⟨stabPush sf st.hist pcs, some c'⟩ : DetState), some c')
        else ((⟨stabPush sf st.hist pcs, st.lastChord⟩ : DetState), none)).2 = none := h'
      show (if some c'.full ≠ Option.map ChordMatch.full st.lastChord then
          ((⟨stabPush sf st.hist pcs, some c'⟩ : DetState), some c')
        else ((⟨stabPush sf st.hist pcs, st.lastChord⟩ : DetState), none)).1.lastChord =
        st.lastChord
      by_cases hf : some c'.full ≠ Option.map ChordMatch.full st.lastChord
      · rw [if_pos hf] at h''
        exact absurd h'' (by simp)
      · rw [if_neg hf]
  · unfold detStep
    rw [if_neg hc]

theorem emitsFrom_chain (sf : ℕ) : ∀ (inputs : List (List ℤ)) (st : DetState),
    List.Chain' (fun a b => a.full ≠ b.full)
      (st.lastChord.toList ++ emitsFrom sf st inputs)
  | [], st => by cases st.lastChord <;> simp [emitsFrom]
  | pcs :: rest, st => by
    rw [emitsFrom]
    cases hstep : detStep sf st pcs with
    | mk st' em =>
      cases em with
      | none =>
        have hlast : st'.lastChord = st.lastChord := by
          have := detStep_noemit (show (detStep sf st pcs).2 = none from by rw [hstep])
          rwa [hstep] at this
        have ih := emitsFrom_chain sf rest st'
        rw [hlast] at ih
        simpa using ih
      | some c =>
        have hem := detStep_emit (show (detStep sf st pcs).2 = some c from by rw [hstep])
        have hlast : st'.lastChord = some c := by
          have := hem.2.2.2; rwa [hstep] at this
        have ih := emitsFrom_chain sf rest st'
        rw [hlast] at ih
        simp only [Option.toList_some, List.singleton_append] at ih
        cases hl : st.lastChord with
        | none => simpa using ih
        | some o =>
          simp only [hl, Option.toList_some, List.singleton_append]
          refine List.chain'_cons.mpr ⟨?_, by simpa using ih⟩
          intro heq
          exact hem.2.2.1 (by simp [hl, heq])

/-- **C8.** Across every frame sequence the chord callback is edge-triggered:
consecutive emitted chords always have different `full` identifiers (never
the same `full` twice in a row), and an emission happens only on a frame
whose window is stable, whose pitch-class set matches that chord, and whose
`full` differs from the previously emitted chord's `full`. -/
theorem chord_events_edge_triggered (sf : ℕ) (inputs : List (List ℤ)) :
    List.Chain' (fun a b => a.full ≠ b.full) (detEmits sf inputs) ∧
      ∀ (st : DetState) (pcs : List ℤ) (c : ChordMatch),
        (detStep sf st pcs).2 = some c →
          stableOf sf (stabPush sf st.hist pcs) = true ∧
            matchChord (some pcs) = some c ∧
            some c.full ≠ st.lastChord.map ChordMatch.full := by
  constructor
  · have h := emitsFrom_chain sf inputs initState
    simpa [detEmits, initState] using h
  · intro st pcs c h
    exact ⟨(detStep_emit h).1, (detStep_emit h).2.1, (detStep_emit h).2.2.1⟩

/-- Witness for C8: with `stabilityFrames = 2`, a frame completing a stable
C-major window emits `"C"` while `lastChord` is still empty. -/
theorem chord_events_edge_triggered_witness :
    (detStep 2 ⟨[[0, 4, 7]], none⟩ [0, 4, 7]).2 = some ⟨"C", 0, "Major", "", "C"⟩ ∧
      (stableOf 2 (stabPush 2 [[0, 4, 7]] [0, 4, 7]) = true ∧
        matchChord (some [0, 4, 7]) = some ⟨"C", 0, "Major", "", "C"⟩ ∧
        some (ChordMatch.full ⟨"C", 0, "Major", "", "C"⟩) ≠
          Option.map ChordMatch.full none) :=
  ⟨by with_unfolding_all decide,
    (chord_events_edge_triggered 2 []).2 ⟨[[0, 4, 7]], none⟩ [0, 4, 7]
      ⟨"C", 0, "Major", "", "C"⟩ (by with_unfolding_all decide)⟩

/-! ## C1: the chord matcher's selection rule -/

theorem le_foldlMax (l : List (ChordMatch × ℚ)) : ∀ b : ℚ,
    b ≤ l.foldl (fun m c => max m c.2) b := by
  induction l with
  | nil => exact fun b => le_refl b
  | cons c rest ih =>
    intro b
    rw [List.foldl_cons]
    exact le_trans (le_max_left b c.2) (ih (max b c.2))

theorem selFold_cons (st : Option ChordMatch × ℚ) (c : ChordMatch × ℚ)
    (cands : List (ChordMatch × ℚ)) :
    selFold st (c :: cands) = selFold (if c.2 > st.2 then (some c.1, c.2) else st) cands := by
  rw [selFold, selFold, List.foldl_cons]

theorem selFold_fst (l : List (ChordMatch × ℚ)) : ∀ (a0 : Option ChordMatch) (b : ℚ),
    (selFold (a0, b) l).1 =
      if b < l.foldl (fun m c => max m c.2) b then
        (l.find? (fun c => decide (c.2 = l.foldl (fun m c => max m c.2) b))).map Prod.fst
      else a0 := by
  induction l with
  | nil =>
    intro a0 b
    rw [List.foldl_nil, if_neg (lt_irrefl b)]
    rfl
  | cons c rest ih =>
    intro a0 b
    rw [selFold_cons, List.foldl_cons]
    by_cases h : c.2 > b
    · have hmax : max b c.2 = c.2 := max_eq_right h.le
      rw [if_pos h, hmax, ih]
      have hcM : c.2 ≤ rest.foldl (fun m c => max m c.2) c.2 := le_foldlMax rest c.2
      have hbM : b < rest.foldl (fun m c => max m c.2) c.2 := lt_of_lt_of_le h hcM
      rw [if_pos hbM]
      by_cases h2 : c.2 < rest.foldl (fun m c => max m c.2) c.2
      · rw [if_pos h2, List.find?_cons_of_neg _ (by simp [ne_of_lt h2])]
      · have hM : rest.foldl (fun m c => max m c.2) c.2 = c.2 :=
          le_antisymm (not_lt.mp h2) hcM
        rw [if_neg h2, List.find?_cons_of_pos _ (by simp [hM])]
        rfl
    · have hmax : max b c.2 = b := max_eq_left (not_lt.mp h)
      rw [if_neg h, hmax, ih]
      by_cases h2 : b < rest.foldl (fun m c => max m c.2) b
      · have hcne : c.2 ≠ rest.foldl (fun m c => max m c.2) b :=
          ne_of_lt (lt_of_le_of_lt (not_lt.mp h) h2)
        rw [if_pos h2, if_pos h2, List.find?_cons_of_neg _ (by simp [hcne])]
      · rw [if_neg h2, if_neg h2]

theorem foldl_flatMap {α β γ : Type} (f : β → α → β) (g : γ → List α) :
    ∀ (l : List γ) (init : β),
      (l.flatMap g).foldl f init = l.foldl (fun st x => (g x).foldl f st) init
  | [], _ => rfl
  | x :: l, init => by
    rw [List.flatMap_cons, List.foldl_append, List.foldl_cons]
    exact foldl_flatMap f g l _

theorem matchCore_eq_selFold (pcs : List ℤ) :
    matchCore pcs = (selFold (none, 1/2) (chordCands pcs)).1 := by
  rw [matchCore, chordCands, selFold, foldl_flatMap]
  congr 1

/-- **C1.** For every deduplicated ascending pitch-class list of size ≥ 2
given to `matchChord`, every (root, template) pair is scored
`matches/|template| - (extra notes)·0.1`, and the returned match is exactly
the spec's selection: the first candidate (ascending root, then catalog
order) attaining the maximum score, reported iff that maximum strictly
exceeds the 0.5 baseline — ties never overriding an earlier winner. -/
theorem chord_select_first_strict_max (pcs : List ℤ)
    (hs : List.Sorted (· < ·) pcs) (h2 : 2 ≤ pcs.length) :
    matchChord (some pcs) = specChordSelect pcs := by
  have h2' : ¬ pcs.length < 2 := by omega
  have hcanon := canonPcs_eq_self hs
  have hmc : matchChord (some pcs) = matchCore pcs := by
    simp [matchChord, hcanon, h2']
  rw [hmc, matchCore_eq_selFold, selFold_fst, specChordSelect, candMax]

/-- Witness for C1 at the C-major triad `[0,4,7]`. -/
theorem chord_select_first_strict_max_witness :
    (List.Sorted (· < ·) ([0, 4, 7] : List ℤ) ∧ 2 ≤ ([0, 4, 7] : List ℤ).length) ∧
      matchChord (some [0, 4, 7]) = specChordSelect [0, 4, 7] :=
  ⟨⟨by decide, by norm_num⟩,
    chord_select_first_strict_max [0, 4, 7] (by decide) (by norm_num)⟩

/-! ## C3: the harmonic sieve on a synthetic harmonic spectrum -/

theorem harmSearch_cons_neg (M : List ℚ) (i : ℕ) (e : ℚ) (j : ℕ) (js : List ℕ)
    (h : ¬(j ≠ i ∧ |M.getD j 0 - e| < 1/2)) :
    harmSearch M i e (j :: js) = harmSearch M i e js := by
  rw [harmSearch, if_neg h]

theorem harmSearch_cons_pos (M : List ℚ) (i : ℕ) (e : ℚ) (j : ℕ) (js : List ℕ)
    (h : j ≠ i ∧ |M.getD j 0 - e| < 1/2) :
    harmSearch M i e (j :: js) = some j := by
  rw [harmSearch, if_pos h]

theorem pickAux_cons_pos (scores : List ℚ) (used : List Bool) (i : ℕ) (is : List ℕ)
    (st : Option ℕ × ℚ) (h : used.getD i false = false ∧ scores.getD i 0 > st.2) :
    pickAux scores used (i :: is) st = pickAux scores used is (some i, scores.getD i 0) := by
  rw [pickAux, if_pos h]

theorem pickAux_cons_neg (scores : List ℚ) (used : List Bool) (i : ℕ) (is : List ℕ)
    (st : Option ℕ × ℚ) (h : ¬(used.getD i false = false ∧ scores.getD i 0 > st.2)) :
    pickAux scores used (i :: is) st = pickAux scores used is st := by
  rw [pickAux, if_neg h]

theorem selectLoop_step (l2 : ℕ → ℚ) (nh : ℕ) (M NS : List ℚ) (fuel : ℕ) (used : List Bool) :
    selectLoop l2 nh M NS (fuel + 1) used =
      match (pickBest NS used).1 with
      | none => []
      | some bi =>
        M.getD bi 0 ::
          selectLoop l2 nh M NS fuel (markUsed l2 nh M (M.getD bi 0) (used.set bi true)) := rfl

/-- **C3 counterexample.** The claim fails as stated: a synthetic spectrum
consisting of a fundamental (MIDI 60) and its exact 2nd/3rd/4th harmonics,
but with the 2nd harmonic carrying most of the energy, makes the sieve
select the 2nd harmonic first (octave ambiguity) and then the base as a
second fundamental — two fundamentals, not "exactly one, the base". -/
theorem harmonic_sieve_counterexample :
    sieve log2d 6 8 [60, 72, 60 + 12 * log2d 3, 84] [1, 100, 1, 1] = [72, 60] ∧
      (sieve log2d 6 8 [60, 72, 60 + 12 * log2d 3, 84] [1, 100, 1, 1]).length ≠ 1 := by
  constructor <;> with_unfolding_all decide

/-- **C3 (amended).** For a synthetic spectrum whose peaks are a single
fundamental with MIDI in `[24, 96]` together with its exact 2nd, 3rd and 4th
harmonics, *with non-increasing harmonic energies* (`e0 ≥ e1 ≥ e2 ≥ e3 > 0`),
the harmonic sieve selects exactly one fundamental, the base peak: when the
base is selected, every peak within 0.5 semitones of its expected harmonic
positions for orders 2..numHarmonics is marked used and is never selected as
a fundamental afterwards, so the output is exactly `[m]`.  The `log2q`
hypotheses pin `Math.log2` at the values/bounds the IEEE doubles satisfy. -/
theorem harmonic_sieve_single_fundamental (log2q : ℕ → ℚ) (m e0 e1 e2 e3 : ℚ)
    (hl2 : log2q 2 = 1) (hl4 : log2q 4 = 2)
    (hl3a : 1584/1000 ≤ log2q 3) (hl3b : log2q 3 ≤ 1586/1000)
    (hl5a : 2321/1000 ≤ log2q 5) (hl5b : log2q 5 ≤ 2323/1000)
    (hl6a : 2584/1000 ≤ log2q 6) (hl6b : log2q 6 ≤ 2586/1000)
    (hm1 : (24:ℚ) ≤ m) (hm2 : m ≤ 96)
    (he01 : e1 ≤ e0) (he12 : e2 ≤ e1) (he23 : e3 ≤ e2) (he3 : 0 < e3) :
    sieve log2q 6 8 [m, m + 12, m + 12 * log2q 3, m + 24] [e0, e1, e2, e3] = [m] := by
  have f02 : findHarm [m, m + 12, m + 12 * log2q 3, m + 24] 0
      (([m, m + 12, m + 12 * log2q 3, m + 24] : List ℚ).getD 0 0 + 12 * log2q 2) = some 1 := by
    show harmSearch [m, m + 12, m + 12 * log2q 3, m + 24] 0 (m + 12 * log2q 2) [0, 1, 2, 3] = some 1
    rw [harmSearch_cons_neg [m, m + 12, m + 12 * log2q 3, m + 24] 0 (m + 12 * log2q 2) 0 [1, 2, 3]
      (by show ¬((0:ℕ) ≠ (0:ℕ) ∧ |(m) - (m + 12 * log2q 2)| < 1/2); simp)]
    rw [harmSearch_cons_pos [m, m + 12, m + 12 * log2q 3, m + 24] 0 (m + 12 * log2q 2) 1 [2, 3]
      ⟨by norm_num, by show |(m + 12) - (m + 12 * log2q 2)| < 1/2; rw [abs_lt]; constructor <;>
        linarith [hl2, hl4, hl3a, hl3b, hl5a, hl5b, hl6a, hl6b]⟩]
  have f03 : findHarm [m, m + 12, m + 12 * log2q 3, m + 24] 0
      (([m, m + 12, m + 12 * log2q 3, m + 24] : List ℚ).getD 0 0 + 12 * log2q 3) = some 2 := by
    show harmSearch [m, m + 12, m + 12 * log2q 3, m + 24] 0 (m + 12 * log2q 3) [0, 1, 2, 3] = some 2
    rw [harmSearch_cons_neg [m, m + 12, m + 12 * log2q 3, m + 24] 0 (m + 12 * log2q 3) 0 [1, 2, 3]
      (by show ¬((0:ℕ) ≠ (0:ℕ) ∧ |(m) - (m + 12 * log2q 3)| < 1/2); simp)]
    rw [harmSearch_cons_neg [m, m + 12, m + 12 * log2q 3, m + 24] 0 (m + 12 * log2q 3) 1 [2, 3]
      (by show ¬((1:ℕ) ≠ (0:ℕ) ∧ |(m + 12) - (m + 12 * log2q 3)| < 1/2)
          rintro ⟨-, habs⟩; rw [abs_lt] at habs; obtain ⟨ha, hb⟩ := habs
          linarith [hl2, hl4, hl3a, hl3b, hl5a, hl5b, hl6a, hl6b])]
    rw [harmSearch_cons_pos [m, m + 12, m + 12 * log2q 3, m + 24] 0 (m + 12 * log2q 3) 2 [3]
      ⟨by norm_num, by show |(m + 12 * log2q 3) - (m + 12 * log2q 3)| < 1/2; rw [abs_lt]; constructor <;>
        linarith [hl2, hl4, hl3a, hl3b, hl5a, hl5b, hl6a, hl6b]⟩]
  have f04 : findHarm [m, m + 12, m + 12 * log2q 3, m + 24] 0
      (([m, m + 12, m + 12 * log2q 3, m + 24] : List ℚ).getD 0 0 + 12 * log2q 4) = some 3 := by
    show harmSearch [m, m + 12, m + 12 * log2q 3, m + 24] 0 (m + 12 * log2q 4) [0, 1, 2, 3] = some 3
    rw [harmSearch_cons_neg [m, m + 12, m + 12 * log2q 3, m + 24] 0 (m + 12 * log2q 4) 0 [1, 2, 3]
      (by show ¬((0:ℕ) ≠ (0:ℕ) ∧ |(m) - (m + 12 * log2q 4)| < 1/2); simp)]
    rw [harmSearch_cons_neg [m, m + 12, m + 12 * log2q 3, m + 24] 0 (m + 12 * log2q 4) 1 [2, 3]
      (by show ¬((1:ℕ) ≠ (0:ℕ) ∧ |(m + 12) - (m + 12 * log2q 4)| < 1/2)
          rintro ⟨-, habs⟩; rw [abs_lt] at habs; obtain ⟨ha, hb⟩ := habs
          linarith [hl2, hl4, hl3a, hl3b, hl5a, hl5b, hl6a, hl6b])]
    rw [harmSearch_cons_neg [m, m + 12, m + 12 * log2q 3, m + 24] 0 (m + 12 * log2q 4) 2 [3]
      (by show ¬((2:ℕ) ≠ (0:ℕ) ∧ |(m + 12 * log2q 3) - (m + 12 * log2q 4)| < 1/2)
          rintro ⟨-, habs⟩; rw [abs_lt] at habs; obtain ⟨ha, hb⟩ := habs
          linarith [hl2, hl4, hl3a, hl3b, hl5a, hl5b, hl6a, hl6b])]
    rw [harmSearch_cons_pos [m, m + 12, m + 12 * log2q 3, m + 24] 0 (m + 12 * log2q 4) 3 []
      ⟨by norm_num, by show |(m + 24) - (m + 12 * log2q 4)| < 1/2; rw [abs_lt]; constructor <;>
        linarith [hl2, hl4, hl3a, hl3b, hl5a, hl5b, hl6a, hl6b]⟩]
  have f05 : findHarm [m, m + 12, m + 12 * log2q 3, m + 24] 0
      (([m, m + 12, m + 12 * log2q 3, m + 24] : List ℚ).getD 0 0 + 12 * log2q 5) = none := by
    show harmSearch [m, m + 12, m + 12 * log2q 3, m + 24] 0 (m + 12 * log2q 5) [0, 1, 2, 3] = none
    rw [harmSearch_cons_neg [m, m + 12, m + 12 * log2q 3, m + 24] 0 (m + 12 * log2q 5) 0 [1, 2, 3]
      (by show ¬((0:ℕ) ≠ (0:ℕ) ∧ |(m) - (m + 12 * log2q 5)| < 1/2); simp)]
    rw [harmSearch_cons_neg [m, m + 12, m + 12 * log2q 3, m + 24] 0 (m + 12 * log2q 5) 1 [2, 3]
      (by show ¬((1:ℕ) ≠ (0:ℕ) ∧ |(m + 12) - (m + 12 * log2q 5)| < 1/2)
          rintro ⟨-, habs⟩; rw [abs_lt] at habs; obtain ⟨ha, hb⟩ := habs
          linarith [hl2, hl4, hl3a, hl3b, hl5a, hl5b, hl6a, hl6b])]
    rw [harmSearch_cons_neg [m, m + 12, m + 12 * log2q 3, m + 24] 0 (m + 12 * log2q 5) 2 [3]
      (by show ¬((2:ℕ) ≠ (0:ℕ) ∧ |(m + 12 * log2q 3) - (m + 12 * log2q 5)| < 1/2)
          rintro ⟨-, habs⟩; rw [abs_lt] at habs; obtain ⟨ha, hb⟩ := habs
          linarith [hl2, hl4, hl3a, hl3b, hl5a, hl5b, hl6a, hl6b])]
    rw [harmSearch_cons_neg [m, m + 12, m + 12 * log2q 3, m + 24] 0 (m + 12 * log2q 5) 3 []
      (by show ¬((3:ℕ) ≠ (0:ℕ) ∧ |(m + 24) - (m + 12 * log2q 5)| < 1/2)
          rintro ⟨-, habs⟩; rw [abs_lt] at habs; obtain ⟨ha, hb⟩ := habs
          linarith [hl2, hl4, hl3a, hl3b, hl5a, hl5b, hl6a, hl6b])]
    rfl
  have f06 : findHarm [m, m + 12, m + 12 * log2q 3, m + 24] 0
      (([m, m + 12, m + 12 * log2q 3, m + 24] : List ℚ).getD 0 0 + 12 * log2q 6) = none := by
    show harmSearch [m, m + 12, m + 12 * log2q 3, m + 24] 0 (m + 12 * log2q 6) [0, 1, 2, 3] = none
    rw [harmSearch_cons_neg [m, m + 12, m + 12 * log2q 3, m + 24] 0 (m + 12 * log2q 6) 0 [1, 2, 3]
      (by show ¬((0:ℕ) ≠ (0:ℕ) ∧ |(m) - (m + 12 * log2q 6)| < 1/2); simp)]
    rw [harmSearch_cons_neg [m, m + 12, m + 12 * log2q 3, m + 24] 0 (m + 12 * log2q 6) 1 [2, 3]
      (by show ¬((1:ℕ) ≠ (0:ℕ) ∧ |(m + 12) - (m + 12 * log2q 6)| < 1/2)
          rintro ⟨-, habs⟩; rw [abs_lt] at habs; obtain ⟨ha, hb⟩ := habs
          linarith [hl2, hl4, hl3a, hl3b, hl5a, hl5b, hl6a, hl6b])]
    rw [harmSearch_cons_neg [m, m + 12, m + 12 * log2q 3, m + 24] 0 (m + 12 * log2q 6) 2 [3]
      (by show ¬((2:ℕ) ≠ (0:ℕ) ∧ |(m + 12 * log2q 3) - (m + 12 * log2q 6)| < 1/2)
          rintro ⟨-, habs⟩; rw [abs_lt] at habs; obtain ⟨ha, hb⟩ := habs
          linarith [hl2, hl4, hl3a, hl3b, hl5a, hl5b, hl6a, hl6b])]
    rw [harmSearch_cons_neg [m, m + 12, m + 12 * log2q 3, m + 24] 0 (m + 12 * log2q 6) 3 []
      (by show ¬((3:ℕ) ≠ (0:ℕ) ∧ |(m + 24) - (m + 12 * log2q 6)| < 1/2)
          rintro ⟨-, habs⟩; rw [abs_lt] at habs; obtain ⟨ha, hb⟩ := habs
          linarith [hl2, hl4, hl3a, hl3b, hl5a, hl5b, hl6a, hl6b])]
    rfl
  have f12 : findHarm [m, m + 12, m + 12 * log2q 3, m + 24] 1
      (([m, m + 12, m + 12 * log2q 3, m + 24] : List ℚ).getD 1 0 + 12 * log2q 2) = some 3 := by
    show harmSearch [m, m + 12, m + 12 * log2q 3, m + 24] 1 (m + 12 + 12 * log2q 2) [0, 1, 2, 3] = some 3
    rw [harmSearch_cons_neg [m, m + 12, m + 12 * log2q 3, m + 24] 1 (m + 12 + 12 * log2q 2) 0 [1, 2, 3]
      (by show ¬((0:ℕ) ≠ (1:ℕ) ∧ |(m) - (m + 12 + 12 * log2q 2)| < 1/2)
          rintro ⟨-, habs⟩; rw [abs_lt] at habs; obtain ⟨ha, hb⟩ := habs
          linarith [hl2, hl4, hl3a, hl3b, hl5a, hl5b, hl6a, hl6b])]
    rw [harmSearch_cons_neg [m, m + 12, m + 12 * log2q 3, m + 24] 1 (m + 12 + 12 * log2q 2) 1 [2, 3]
      (by show ¬((1:ℕ) ≠ (1:ℕ) ∧ |(m + 12) - (m + 12 + 12 * log2q 2)| < 1/2); simp)]
    rw [harmSearch_cons_neg [m, m + 12, m + 12 * log2q 3, m + 24] 1 (m + 12 + 12 * log2q 2) 2 [3]
      (by show ¬((2:ℕ) ≠ (1:ℕ) ∧ |(m + 12 * log2q 3) - (m + 12 + 12 * log2q 2)| < 1/2)
          rintro ⟨-, habs⟩; rw [abs_lt] at habs; obtain ⟨ha, hb⟩ := habs
          linarith [hl2, hl4, hl3a, hl3b, hl5a, hl5b, hl6a, hl6b])]
    rw [harmSearch_cons_pos [m, m + 12, m + 12 * log2q 3, m + 24] 1 (m + 12 + 12 * log2q 2) 3 []
      ⟨by norm_num, by show |(m + 24) - (m + 12 + 12 * log2q 2)| < 1/2; rw [abs_lt]; constructor <;>
        linarith [hl2, hl4, hl3a, hl3b, hl5a, hl5b, hl6a, hl6b]⟩]
  have f13 : findHarm [m, m + 12, m + 12 * log2q 3, m + 24] 1
      (([m, m + 12, m + 12 * log2q 3, m + 24] : List ℚ).getD 1 0 + 12 * log2q 3) = none := by
    show harmSearch [m, m + 12, m + 12 * log2q 3, m + 24] 1 (m + 12 + 12 * log2q 3) [0, 1, 2, 3] = none
    rw [harmSearch_cons_neg [m, m + 12, m + 12 * log2q 3, m + 24] 1 (m + 12 + 12 * log2q 3) 0 [1, 2, 3]
      (by show ¬((0:ℕ) ≠ (1:ℕ) ∧ |(m) - (m + 12 + 12 * log2q 3)| < 1/2)
          rintro ⟨-, habs⟩; rw [abs_lt] at habs; obtain ⟨ha, hb⟩ := habs
          linarith [hl2, hl4, hl3a, hl3b, hl5a, hl5b, hl6a, hl6b])]
    rw [harmSearch_cons_neg [m, m + 12, m + 12 * log2q 3, m + 24] 1 (m + 12 + 12 * log2q 3) 1 [2, 3]
      (by show ¬((1:ℕ) ≠ (1:ℕ) ∧ |(m + 12) - (m + 12 + 12 * log2q 3)| < 1/2); simp)]
    rw [harmSearch_cons_neg [m, m + 12, m + 12 * log2q 3, m + 24] 1 (m + 12 + 12 * log2q 3) 2 [3]
      (by show ¬((2:ℕ) ≠ (1:ℕ) ∧ |(m + 12 * log2q 3) - (m + 12 + 12 * log2q 3)| < 1/2)
          rintro ⟨-, habs⟩; rw [abs_lt] at habs; obtain ⟨ha, hb⟩ := habs
          linarith [hl2, hl4, hl3a, hl3b, hl5a, hl5b, hl6a, hl6b])]
    rw [harmSearch_cons_neg [m, m + 12, m + 12 * log2q 3, m + 24] 1 (m + 12 + 12 * log2q 3) 3 []
      (by show ¬((3:ℕ) ≠ (1:ℕ) ∧ |(m + 24) - (m + 12 + 12 * log2q 3)| < 1/2)
          rintro ⟨-, habs⟩; rw [abs_lt] at habs; obtain ⟨ha, hb⟩ := habs
          linarith [hl2, hl4, hl3a, hl3b, hl5a, hl5b, hl6a, hl6b])]
    rfl
  have f14 : findHarm [m, m + 12, m + 12 * log2q 3, m + 24] 1
      (([m, m + 12, m + 12 * log2q 3, m + 24] : List ℚ).getD 1 0 + 12 * log2q 4) = none := by
    show harmSearch [m, m + 12, m + 12 * log2q 3, m + 24] 1 (m + 12 + 12 * log2q 4) [0, 1, 2, 3] = none
    rw [harmSearch_cons_neg [m, m + 12, m + 12 * log2q 3, m + 24] 1 (m + 12 + 12 * log2q 4) 0 [1, 2, 3]
      (by show ¬((0:ℕ) ≠ (1:ℕ) ∧ |(m) - (m + 12 + 12 * log2q 4)| < 1/2)
          rintro ⟨-, habs⟩; rw [abs_lt] at habs; obtain ⟨ha, hb⟩ := habs
          linarith [hl2, hl4, hl3a, hl3b, hl5a, hl5b, hl6a, hl6b])]
    rw [harmSearch_cons_neg [m, m + 12, m + 12 * log2q 3, m + 24] 1 (m + 12 + 12 * log2q 4) 1 [2, 3]
      (by show ¬((1:ℕ) ≠ (1:ℕ) ∧ |(m + 12) - (m + 12 + 12 * log2q 4)| < 1/2); simp)]
    rw [harmSearch_cons_neg [m, m + 12, m + 12 * log2q 3, m + 24] 1 (m + 12 + 12 * log2q 4) 2 [3]
      (by show ¬((2:ℕ) ≠ (1:ℕ) ∧ |(m + 12 * log2q 3) - (m + 12 + 12 * log2q 4)| < 1/2)
          rintro ⟨-, habs⟩; rw [abs_lt] at habs; obtain ⟨ha, hb⟩ := habs
          linarith [hl2, hl4, hl3a, hl3b, hl5a, hl5b, hl6a, hl6b])]
    rw [harmSearch_cons_neg [m, m + 12, m + 12 * log2q 3, m + 24] 1 (m + 12 + 12 * log2q 4) 3 []
      (by show ¬((3:ℕ) ≠ (1:ℕ) ∧ |(m + 24) - (m + 12 + 12 * log2q 4)| < 1/2)
          rintro ⟨-, habs⟩; rw [abs_lt] at habs; obtain ⟨ha, hb⟩ := habs
          linarith [hl2, hl4, hl3a, hl3b, hl5a, hl5b, hl6a, hl6b])]
    rfl
  have f15 : findHarm [m, m + 12, m + 12 * log2q 3, m + 24] 1
      (([m, m + 12, m + 12 * log2q 3, m + 24] : List ℚ).getD 1 0 + 12 * log2q 5) = none := by
    show harmSearch [m, m + 12, m + 12 * log2q 3, m + 24] 1 (m + 12 + 12 * log2q 5) [0, 1, 2, 3] = none
    rw [harmSearch_cons_neg [m, m + 12, m + 12 * log2q 3, m + 24] 1 (m + 12 + 12 * log2q 5) 0 [1, 2, 3]
      (by show ¬((0:ℕ) ≠ (1:ℕ) ∧ |(m) - (m + 12 + 12 * log2q 5)| < 1/2)
          rintro ⟨-, habs⟩; rw [abs_lt] at habs; obtain ⟨ha, hb⟩ := habs
          linarith [hl2, hl4, hl3a, hl3b, hl5a, hl5b, hl6a, hl6b])]
    rw [harmSearch_cons_neg [m, m + 12, m + 12 * log2q 3, m + 24] 1 (m + 12 + 12 * log2q 5) 1 [2, 3]
      (by show ¬((1:ℕ) ≠ (1:ℕ) ∧ |(m + 12) - (m + 12 + 12 * log2q 5)| < 1/2); simp)]
    rw [harmSearch_cons_neg [m, m + 12, m + 12 * log2q 3, m + 24] 1 (m + 12 + 12 * log2q 5) 2 [3]
      (by show ¬((2:ℕ) ≠ (1:ℕ) ∧ |(m + 12 * log2q 3) - (m + 12 + 12 * log2q 5)| < 1/2)
          rintro ⟨-, habs⟩; rw [abs_lt] at habs; obtain ⟨ha, hb⟩ := habs
          linarith [hl2, hl4, hl3a, hl3b, hl5a, hl5b, hl6a, hl6b])]
    rw [harmSearch_cons_neg [m, m + 12, m + 12 * log2q 3, m + 24] 1 (m + 12 + 12 * log2q 5) 3 []
      (by show ¬((3:ℕ) ≠ (1:ℕ) ∧ |(m + 24) - (m + 12 + 12 * log2q 5)| < 1/2)
          rintro ⟨-, habs⟩; rw [abs_lt] at habs; obtain ⟨ha, hb⟩ := habs
          linarith [hl2, hl4, hl3a, hl3b, hl5a, hl5b, hl6a, hl6b])]
    rfl
  have f16 : findHarm [m, m + 12, m + 12 * log2q 3, m + 24] 1
      (([m, m + 12, m + 12 * log2q 3, m + 24] : List ℚ).getD 1 0 + 12 * log2q 6) = none := by
    show harmSearch [m, m + 12, m + 12 * log2q 3, m + 24] 1 (m + 12 + 12 * log2q 6) [0, 1, 2, 3] = none
    rw [harmSearch_cons_neg [m, m + 12, m + 12 * log2q 3, m + 24] 1 (m + 12 + 12 * log2q 6) 0 [1, 2, 3]
      (by show ¬((0:ℕ) ≠ (1:ℕ) ∧ |(m) - (m + 12 + 12 * log2q 6)| < 1/2)
          rintro ⟨-, habs⟩; rw [abs_lt] at habs; obtain ⟨ha, hb⟩ := habs
          linarith [hl2, hl4, hl3a, hl3b, hl5a, hl5b, hl6a, hl6b])]
    rw [harmSearch_cons_neg [m, m + 12, m + 12 * log2q 3, m + 24] 1 (m + 12 + 12 * log2q 6) 1 [2, 3]
      (by show ¬((1:ℕ) ≠ (1:ℕ) ∧ |(m + 12) - (m + 12 + 12 * log2q 6)| < 1/2); simp)]
    rw [harmSearch_cons_neg [m, m + 12, m + 12 * log2q 3, m + 24] 1 (m + 12 + 12 * log2q 6) 2 [3]
      (by show ¬((2:ℕ) ≠ (1:ℕ) ∧ |(m + 12 * log2q 3) - (m + 12 + 12 * log2q 6)| < 1/2)
          rintro ⟨-, habs⟩; rw [abs_lt] at habs; obtain ⟨ha, hb⟩ := habs
          linarith [hl2, hl4, hl3a, hl3b, hl5a, hl5b, hl6a, hl6b])]
    rw [harmSearch_cons_neg [m, m + 12, m + 12 * log2q 3, m + 24] 1 (m + 12 + 12 * log2q 6) 3 []
      (by show ¬((3:ℕ) ≠ (1:ℕ) ∧ |(m + 24) - (m + 12 + 12 * log2q 6)| < 1/2)
          rintro ⟨-, habs⟩; rw [abs_lt] at habs; obtain ⟨ha, hb⟩ := habs
          linarith [hl2, hl4, hl3a, hl3b, hl5a, hl5b, hl6a, hl6b])]
    rfl
  have f22 : findHarm [m, m + 12, m + 12 * log2q 3, m + 24] 2
      (([m, m + 12, m + 12 * log2q 3, m + 24] : List ℚ).getD 2 0 + 12 * log2q 2) = none := by
    show harmSearch [m, m + 12, m + 12 * log2q 3, m + 24] 2 (m + 12 * log2q 3 + 12 * log2q 2) [0, 1, 2, 3] = none
    rw [harmSearch_cons_neg [m, m + 12, m + 12 * log2q 3, m + 24] 2 (m + 12 * log2q 3 + 12 * log2q 2) 0 [1, 2, 3]
      (by show ¬((0:ℕ) ≠ (2:ℕ) ∧ |(m) - (m + 12 * log2q 3 + 12 * log2q 2)| < 1/2)
          rintro ⟨-, habs⟩; rw [abs_lt] at habs; obtain ⟨ha, hb⟩ := habs
          linarith [hl2, hl4, hl3a, hl3b, hl5a, hl5b, hl6a, hl6b])]
    rw [harmSearch_cons_neg [m, m + 12, m + 12 * log2q 3, m + 24] 2 (m + 12 * log2q 3 + 12 * log2q 2) 1 [2, 3]
      (by show ¬((1:ℕ) ≠ (2:ℕ) ∧ |(m + 12) - (m + 12 * log2q 3 + 12 * log2q 2)| < 1/2)
          rintro ⟨-, habs⟩; rw [abs_lt] at habs; obtain ⟨ha, hb⟩ := habs
          linarith [hl2, hl4, hl3a, hl3b, hl5a, hl5b, hl6a, hl6b])]
    rw [harmSearch_cons_neg [m, m + 12, m + 12 * log2q 3, m + 24] 2 (m + 12 * log2q 3 + 12 * log2q 2) 2 [3]
      (by show ¬((2:ℕ) ≠ (2:ℕ) ∧ |(m + 12 * log2q 3) - (m + 12 * log2q 3 + 12 * log2q 2)| < 1/2); simp)]
    rw [harmSearch_cons_neg [m, m + 12, m + 12 * log2q 3, m + 24] 2 (m + 12 * log2q 3 + 12 * log2q 2) 3 []
      (by show ¬((3:ℕ) ≠ (2:ℕ) ∧ |(m + 24) - (m + 12 * log2q 3 + 12 * log2q 2)| < 1/2)
          rintro ⟨-, habs⟩; rw [abs_lt] at habs; obtain ⟨ha, hb⟩ := habs
          linarith [hl2, hl4, hl3a, hl3b, hl5a, hl5b, hl6a, hl6b])]
    rfl
  have f23 : findHarm [m, m + 12, m + 12 * log2q 3, m + 24] 2
      (([m, m + 12, m + 12 * log2q 3, m + 24] : List ℚ).getD 2 0 + 12 * log2q 3) = none := by
    show harmSearch [m, m + 12, m + 12 * log2q 3, m + 24] 2 (m + 12 * log2q 3 + 12 * log2q 3) [0, 1, 2, 3] = none
    rw [harmSearch_cons_neg [m, m + 12, m + 12 * log2q 3, m + 24] 2 (m + 12 * log2q 3 + 12 * log2q 3) 0 [1, 2, 3]
      (by show ¬((0:ℕ) ≠ (2:ℕ) ∧ |(m) - (m + 12 * log2q 3 + 12 * log2q 3)| < 1/2)
          rintro ⟨-, habs⟩; rw [abs_lt] at habs; obtain ⟨ha, hb⟩ := habs
          linarith [hl2, hl4, hl3a, hl3b, hl5a, hl5b, hl6a, hl6b])]
    rw [harmSearch_cons_neg [m, m + 12, m + 12 * log2q 3, m + 24] 2 (m + 12 * log2q 3 + 12 * log2q 3) 1 [2, 3]
      (by show ¬((1:ℕ) ≠ (2:ℕ) ∧ |(m + 12) - (m + 12 * log2q 3 + 12 * log2q 3)| < 1/2)
          rintro ⟨-, habs⟩; rw [abs_lt] at habs; obtain ⟨ha, hb⟩ := habs
          linarith [hl2, hl4, hl3a, hl3b, hl5a, hl5b, hl6a, hl6b])]
    rw [harmSearch_cons_neg [m, m + 12, m + 12 * log2q 3, m + 24] 2 (m + 12 * log2q 3 + 12 * log2q 3) 2 [3]
      (by show ¬((2:ℕ) ≠ (2:ℕ) ∧ |(m + 12 * log2q 3) - (m + 12 * log2q 3 + 12 * log2q 3)| < 1/2); simp)]
    rw [harmSearch_cons_neg [m, m + 12, m + 12 * log2q 3, m + 24] 2 (m + 12 * log2q 3 + 12 * log2q 3) 3 []
      (by show ¬((3:ℕ) ≠ (2:ℕ) ∧ |(m + 24) - (m + 12 * log2q 3 + 12 * log2q 3)| < 1/2)
          rintro ⟨-, habs⟩; rw [abs_lt] at habs; obtain ⟨ha, hb⟩ := habs
          linarith [hl2, hl4, hl3a, hl3b, hl5a, hl5b, hl6a, hl6b])]
    rfl
  have f24 : findHarm [m, m + 12, m + 12 * log2q 3, m + 24] 2
      (([m, m + 12, m + 12 * log2q 3, m + 24] : List ℚ).getD 2 0 + 12 * log2q 4) = none := by
    show harmSearch [m, m + 12, m + 12 * log2q 3, m + 24] 2 (m + 12 * log2q 3 + 12 * log2q 4) [0, 1, 2, 3] = none
    rw [harmSearch_cons_neg [m, m + 12, m + 12 * log2q 3, m + 24] 2 (m + 12 * log2q 3 + 12 * log2q 4) 0 [1, 2, 3]
      (by show ¬((0:ℕ) ≠ (2:ℕ) ∧ |(m) - (m + 12 * log2q 3 + 12 * log2q 4)| < 1/2)
          rintro ⟨-, habs⟩; rw [abs_lt] at habs; obtain ⟨ha, hb⟩ := habs
          linarith [hl2, hl4, hl3a, hl3b, hl5a, hl5b, hl6a, hl6b])]
    rw [harmSearch_cons_neg [m, m + 12, m + 12 * log2q 3, m + 24] 2 (m + 12 * log2q 3 + 12 * log2q 4) 1 [2, 3]
      (by show ¬((1:ℕ) ≠ (2:ℕ) ∧ |(m + 12) - (m + 12 * log2q 3 + 12 * log2q 4)| < 1/2)
          rintro ⟨-, habs⟩; rw [abs_lt] at habs; obtain ⟨ha, hb⟩ := habs
          linarith [hl2, hl4, hl3a, hl3b, hl5a, hl5b, hl6a, hl6b])]
    rw [harmSearch_cons_neg [m, m + 12, m + 12 * log2q 3, m + 24] 2 (m + 12 * log2q 3 + 12 * log2q 4) 2 [3]
      (by show ¬((2:ℕ) ≠ (2:ℕ) ∧ |(m + 12 * log2q 3) - (m + 12 * log2q 3 + 12 * log2q 4)| < 1/2); simp)]
    rw [harmSearch_cons_neg [m, m + 12, m + 12 * log2q 3, m + 24] 2 (m + 12 * log2q 3 + 12 * log2q 4) 3 []
      (by show ¬((3:ℕ) ≠ (2:ℕ) ∧ |(m + 24) - (m + 12 * log2q 3 + 12 * log2q 4)| < 1/2)
          rintro ⟨-, habs⟩; rw [abs_lt] at habs; obtain ⟨ha, hb⟩ := habs
          linarith [hl2, hl4, hl3a, hl3b, hl5a, hl5b, hl6a, hl6b])]
    rfl
  have f25 : findHarm [m, m + 12, m + 12 * log2q 3, m + 24] 2
      (([m, m + 12, m + 12 * log2q 3, m + 24] : List ℚ).getD 2 0 + 12 * log2q 5) = none := by
    show harmSearch [m, m + 12, m + 12 * log2q 3, m + 24] 2 (m + 12 * log2q 3 + 12 * log2q 5) [0, 1, 2, 3] = none
    rw [harmSearch_cons_neg [m, m + 12, m + 12 * log2q 3, m + 24] 2 (m + 12 * log2q 3 + 12 * log2q 5) 0 [1, 2, 3]
      (by show ¬((0:ℕ) ≠ (2:ℕ) ∧ |(m) - (m + 12 * log2q 3 + 12 * log2q 5)| < 1/2)
          rintro ⟨-, habs⟩; rw [abs_lt] at habs; obtain ⟨ha, hb⟩ := habs
          linarith [hl2, hl4, hl3a, hl3b, hl5a, hl5b, hl6a, hl6b])]
    rw [harmSearch_cons_neg [m, m + 12, m + 12 * log2q 3, m + 24] 2 (m + 12 * log2q 3 + 12 * log2q 5) 1 [2, 3]
      (by show ¬((1:ℕ) ≠ (2:ℕ) ∧ |(m + 12) - (m + 12 * log2q 3 + 12 * log2q 5)| < 1/2)
          rintro ⟨-, habs⟩; rw [abs_lt] at habs; obtain ⟨ha, hb⟩ := habs
          linarith [hl2, hl4, hl3a, hl3b, hl5a, hl5b, hl6a, hl6b])]
    rw [harmSearch_cons_neg [m, m + 12, m + 12 * log2q 3, m + 24] 2 (m + 12 * log2q 3 + 12 * log2q 5) 2 [3]
      (by show ¬((2:ℕ) ≠ (2:ℕ) ∧ |(m + 12 * log2q 3) - (m + 12 * log2q 3 + 12 * log2q 5)| < 1/2); simp)]
    rw [harmSearch_cons_neg [m, m + 12, m + 12 * log2q 3, m + 24] 2 (m + 12 * log2q 3 + 12 * log2q 5) 3 []
      (by show ¬((3:ℕ) ≠ (2:ℕ) ∧ |(m + 24) - (m + 12 * log2q 3 + 12 * log2q 5)| < 1/2)
          rintro ⟨-, habs⟩; rw [abs_lt] at habs; obtain ⟨ha, hb⟩ := habs
          linarith [hl2, hl4, hl3a, hl3b, hl5a, hl5b, hl6a, hl6b])]
    rfl
  have f26 : findHarm [m, m + 12, m + 12 * log2q 3, m + 24] 2
      (([m, m + 12, m + 12 * log2q 3, m + 24] : List ℚ).getD 2 0 + 12 * log2q 6) = none := by
    show harmSearch [m, m + 12, m + 12 * log2q 3, m + 24] 2 (m + 12 * log2q 3 + 12 * log2q 6) [0, 1, 2, 3] = none
    rw [harmSearch_cons_neg [m, m + 12, m + 12 * log2q 3, m + 24] 2 (m + 12 * log2q 3 + 12 * log2q 6) 0 [1, 2, 3]
      (by show ¬((0:ℕ) ≠ (2:ℕ) ∧ |(m) - (m + 12 * log2q 3 + 12 * log2q 6)| < 1/2)
          rintro ⟨-, habs⟩; rw [abs_lt] at habs; obtain ⟨ha, hb⟩ := habs
          linarith [hl2, hl4, hl3a, hl3b, hl5a, hl5b, hl6a, hl6b])]
    rw [harmSearch_cons_neg [m, m + 12, m + 12 * log2q 3, m + 24] 2 (m + 12 * log2q 3 + 12 * log2q 6) 1 [2, 3]
      (by show ¬((1:ℕ) ≠ (2:ℕ) ∧ |(m + 12) - (m + 12 * log2q 3 + 12 * log2q 6)| < 1/2)
          rintro ⟨-, habs⟩; rw [abs_lt] at habs; obtain ⟨ha, hb⟩ := habs
          linarith [hl2, hl4, hl3a, hl3b, hl5a, hl5b, hl6a, hl6b])]
    rw [harmSearch_cons_neg [m, m + 12, m + 12 * log2q 3, m + 24] 2 (m + 12 * log2q 3 + 12 * log2q 6) 2 [3]
      (by show ¬((2:ℕ) ≠ (2:ℕ) ∧ |(m + 12 * log2q 3) - (m + 12 * log2q 3 + 12 * log2q 6)| < 1/2); simp)]
    rw [harmSearch_cons_neg [m, m + 12, m + 12 * log2q 3, m + 24] 2 (m + 12 * log2q 3 + 12 * log2q 6) 3 []
      (by show ¬((3:ℕ) ≠ (2:ℕ) ∧ |(m + 24) - (m + 12 * log2q 3 + 12 * log2q 6)| < 1/2)
          rintro ⟨-, habs⟩; rw [abs_lt] at habs; obtain ⟨ha, hb⟩ := habs
          linarith [hl2, hl4, hl3a, hl3b, hl5a, hl5b, hl6a, hl6b])]
    rfl
  have f32 : findHarm [m, m + 12, m + 12 * log2q 3, m + 24] 3
      (([m, m + 12, m + 12 * log2q 3, m + 24] : List ℚ).getD 3 0 + 12 * log2q 2) = none := by
    show harmSearch [m, m + 12, m + 12 * log2q 3, m + 24] 3 (m + 24 + 12 * log2q 2) [0, 1, 2, 3] = none
    rw [harmSearch_cons_neg [m, m + 12, m + 12 * log2q 3, m + 24] 3 (m + 24 + 12 * log2q 2) 0 [1, 2, 3]
      (by show ¬((0:ℕ) ≠ (3:ℕ) ∧ |(m) - (m + 24 + 12 * log2q 2)| < 1/2)
          rintro ⟨-, habs⟩; rw [abs_lt] at habs; obtain ⟨ha, hb⟩ := habs
          linarith [hl2, hl4, hl3a, hl3b, hl5a, hl5b, hl6a, hl6b])]
    rw [harmSearch_cons_neg [m, m + 12, m + 12 * log2q 3, m + 24] 3 (m + 24 + 12 * log2q 2) 1 [2, 3]
      (by show ¬((1:ℕ) ≠ (3:ℕ) ∧ |(m + 12) - (m + 24 + 12 * log2q 2)| < 1/2)
          rintro ⟨-, habs⟩; rw [abs_lt] at habs; obtain ⟨ha, hb⟩ := habs
          linarith [hl2, hl4, hl3a, hl3b, hl5a, hl5b, hl6a, hl6b])]
    rw [harmSearch_cons_neg [m, m + 12, m + 12 * log2q 3, m + 24] 3 (m + 24 + 12 * log2q 2) 2 [3]
      (by show ¬((2:ℕ) ≠ (3:ℕ) ∧ |(m + 12 * log2q 3) - (m + 24 + 12 * log2q 2)| < 1/2)
          rintro ⟨-, habs⟩; rw [abs_lt] at habs; obtain ⟨ha, hb⟩ := habs
          linarith [hl2, hl4, hl3a, hl3b, hl5a, hl5b, hl6a, hl6b])]
    rw [harmSearch_cons_neg [m, m + 12, m + 12 * log2q 3, m + 24] 3 (m + 24 + 12 * log2q 2) 3 []
      (by show ¬((3:ℕ) ≠ (3:ℕ) ∧ |(m + 24) - (m + 24 + 12 * log2q 2)| < 1/2); simp)]
    rfl
  have f33 : findHarm [m, m + 12, m + 12 * log2q 3, m + 24] 3
      (([m, m + 12, m + 12 * log2q 3, m + 24] : List ℚ).getD 3 0 + 12 * log2q 3) = none := by
    show harmSearch [m, m + 12, m + 12 * log2q 3, m + 24] 3 (m + 24 + 12 * log2q 3) [0, 1, 2, 3] = none
    rw [harmSearch_cons_neg [m, m + 12, m + 12 * log2q 3, m + 24] 3 (m + 24 + 12 * log2q 3) 0 [1, 2, 3]
      (by show ¬((0:ℕ) ≠ (3:ℕ) ∧ |(m) - (m + 24 + 12 * log2q 3)| < 1/2)
          rintro ⟨-, habs⟩; rw [abs_lt] at habs; obtain ⟨ha, hb⟩ := habs
          linarith [hl2, hl4, hl3a, hl3b, hl5a, hl5b, hl6a, hl6b])]
    rw [harmSearch_cons_neg [m, m + 12, m + 12 * log2q 3, m + 24] 3 (m + 24 + 12 * log2q 3) 1 [2, 3]
      (by show ¬((1:ℕ) ≠ (3:ℕ) ∧ |(m + 12) - (m + 24 + 12 * log2q 3)| < 1/2)
          rintro ⟨-, habs⟩; rw [abs_lt] at habs; obtain ⟨ha, hb⟩ := habs
          linarith [hl2, hl4, hl3a, hl3b, hl5a, hl5b, hl6a, hl6b])]
    rw [harmSearch_cons_neg [m, m + 12, m + 12 * log2q 3, m + 24] 3 (m + 24 + 12 * log2q 3) 2 [3]
      (by show ¬((2:ℕ) ≠ (3:ℕ) ∧ |(m + 12 * log2q 3) - (m + 24 + 12 * log2q 3)| < 1/2)
          rintro ⟨-, habs⟩; rw [abs_lt] at habs; obtain ⟨ha, hb⟩ := habs
          linarith [hl2, hl4, hl3a, hl3b, hl5a, hl5b, hl6a, hl6b])]
    rw [harmSearch_cons_neg [m, m + 12, m + 12 * log2q 3, m + 24] 3 (m + 24 + 12 * log2q 3) 3 []
      (by show ¬((3:ℕ) ≠ (3:ℕ) ∧ |(m + 24) - (m + 24 + 12 * log2q 3)| < 1/2); simp)]
    rfl
  have f34 : findHarm [m, m + 12, m + 12 * log2q 3, m + 24] 3
      (([m, m + 12, m + 12 * log2q 3, m + 24] : List ℚ).getD 3 0 + 12 * log2q 4) = none := by
    show harmSearch [m, m + 12, m + 12 * log2q 3, m + 24] 3 (m + 24 + 12 * log2q 4) [0, 1, 2, 3] = none
    rw [harmSearch_cons_neg [m, m + 12, m + 12 * log2q 3, m + 24] 3 (m + 24 + 12 * log2q 4) 0 [1, 2, 3]
      (by show ¬((0:ℕ) ≠ (3:ℕ) ∧ |(m) - (m + 24 + 12 * log2q 4)| < 1/2)
          rintro ⟨-, habs⟩; rw [abs_lt] at habs; obtain ⟨ha, hb⟩ := habs
          linarith [hl2, hl4, hl3a, hl3b, hl5a, hl5b, hl6a, hl6b])]
    rw [harmSearch_cons_neg [m, m + 12, m + 12 * log2q 3, m + 24] 3 (m + 24 + 12 * log2q 4) 1 [2, 3]
      (by show ¬((1:ℕ) ≠ (3:ℕ) ∧ |(m + 12) - (m + 24 + 12 * log2q 4)| < 1/2)
          rintro ⟨-, habs⟩; rw [abs_lt] at habs; obtain ⟨ha, hb⟩ := habs
          linarith [hl2, hl4, hl3a, hl3b, hl5a, hl5b, hl6a, hl6b])]
    rw [harmSearch_cons_neg [m, m + 12, m + 12 * log2q 3, m + 24] 3 (m + 24 + 12 * log2q 4) 2 [3]
      (by show ¬((2:ℕ) ≠ (3:ℕ) ∧ |(m + 12 * log2q 3) - (m + 24 + 12 * log2q 4)| < 1/2)
          rintro ⟨-, habs⟩; rw [abs_lt] at habs; obtain ⟨ha, hb⟩ := habs
          linarith [hl2, hl4, hl3a, hl3b, hl5a, hl5b, hl6a, hl6b])]
    rw [harmSearch_cons_neg [m, m + 12, m + 12 * log2q 3, m + 24] 3 (m + 24 + 12 * log2q 4) 3 []
      (by show ¬((3:ℕ) ≠ (3:ℕ) ∧ |(m + 24) - (m + 24 + 12 * log2q 4)| < 1/2); simp)]
    rfl
  have f35 : findHarm [m, m + 12, m + 12 * log2q 3, m + 24] 3
      (([m, m + 12, m + 12 * log2q 3, m + 24] : List ℚ).getD 3 0 + 12 * log2q 5) = none := by
    show harmSearch [m, m + 12, m + 12 * log2q 3, m + 24] 3 (m + 24 + 12 * log2q 5) [0, 1, 2, 3] = none
    rw [harmSearch_cons_neg [m, m + 12, m + 12 * log2q 3, m + 24] 3 (m + 24 + 12 * log2q 5) 0 [1, 2, 3]
      (by show ¬((0:ℕ) ≠ (3:ℕ) ∧ |(m) - (m + 24 + 12 * log2q 5)| < 1/2)
          rintro ⟨-, habs⟩; rw [abs_lt] at habs; obtain ⟨ha, hb⟩ := habs
          linarith [hl2, hl4, hl3a, hl3b, hl5a, hl5b, hl6a, hl6b])]
    rw [harmSearch_cons_neg [m, m + 12, m + 12 * log2q 3, m + 24] 3 (m + 24 + 12 * log2q 5) 1 [2, 3]
      (by show ¬((1:ℕ) ≠ (3:ℕ) ∧ |(m + 12) - (m + 24 + 12 * log2q 5)| < 1/2)
          rintro ⟨-, habs⟩; rw [abs_lt] at habs; obtain ⟨ha, hb⟩ := habs
          linarith [hl2, hl4, hl3a, hl3b, hl5a, hl5b, hl6a, hl6b])]
    rw [harmSearch_cons_neg [m, m + 12, m + 12 * log2q 3, m + 24] 3 (m + 24 + 12 * log2q 5) 2 [3]
      (by show ¬((2:ℕ) ≠ (3:ℕ) ∧ |(m + 12 * log2q 3) - (m + 24 + 12 * log2q 5)| < 1/2)
          rintro ⟨-, habs⟩; rw [abs_lt] at habs; obtain ⟨ha, hb⟩ := habs
          linarith [hl2, hl4, hl3a, hl3b, hl5a, hl5b, hl6a, hl6b])]
    rw [harmSearch_cons_neg [m, m + 12, m + 12 * log2q 3, m + 24] 3 (m + 24 + 12 * log2q 5) 3 []
      (by show ¬((3:ℕ) ≠ (3:ℕ) ∧ |(m + 24) - (m + 24 + 12 * log2q 5)| < 1/2); simp)]
    rfl
  have f36 : findHarm [m, m + 12, m + 12 * log2q 3, m + 24] 3
      (([m, m + 12, m + 12 * log2q 3, m + 24] : List ℚ).getD 3 0 + 12 * log2q 6) = none := by
    show harmSearch [m, m + 12, m + 12 * log2q 3, m + 24] 3 (m + 24 + 12 * log2q 6) [0, 1, 2, 3] = none
    rw [harmSearch_cons_neg [m, m + 12, m + 12 * log2q 3, m + 24] 3 (m + 24 + 12 * log2q 6) 0 [1, 2, 3]
      (by show ¬((0:ℕ) ≠ (3:ℕ) ∧ |(m) - (m + 24 + 12 * log2q 6)| < 1/2)
          rintro ⟨-, habs⟩; rw [abs_lt] at habs; obtain ⟨ha, hb⟩ := habs
          linarith [hl2, hl4, hl3a, hl3b, hl5a, hl5b, hl6a, hl6b])]
    rw [harmSearch_cons_neg [m, m + 12, m + 12 * log2q 3, m + 24] 3 (m + 24 + 12 * log2q 6) 1 [2, 3]
      (by show ¬((1:ℕ) ≠ (3:ℕ) ∧ |(m + 12) - (m + 24 + 12 * log2q 6)| < 1/2)
          rintro ⟨-, habs⟩; rw [abs_lt] at habs; obtain ⟨ha, hb⟩ := habs
          linarith [hl2, hl4, hl3a, hl3b, hl5a, hl5b, hl6a, hl6b])]
    rw [harmSearch_cons_neg [m, m + 12, m + 12 * log2q 3, m + 24] 3 (m + 24 + 12 * log2q 6) 2 [3]
      (by show ¬((2:ℕ) ≠ (3:ℕ) ∧ |(m + 12 * log2q 3) - (m + 24 + 12 * log2q 6)| < 1/2)
          rintro ⟨-, habs⟩; rw [abs_lt] at habs; obtain ⟨ha, hb⟩ := habs
          linarith [hl2, hl4, hl3a, hl3b, hl5a, hl5b, hl6a, hl6b])]
    rw [harmSearch_cons_neg [m, m + 12, m + 12 * log2q 3, m + 24] 3 (m + 24 + 12 * log2q 6) 3 []
      (by show ¬((3:ℕ) ≠ (3:ℕ) ∧ |(m + 24) - (m + 24 + 12 * log2q 6)| < 1/2); simp)]
    rfl
  have hf0 : harmFold log2q 6 [m, m + 12, m + 12 * log2q 3, m + 24] [e0, e1, e2, e3] 0 = (e0 + e1 / 2 + e2 / 3 + e3 / 4, 4) := by
    rw [harmFold, show List.range' 2 (6-1) = [2, 3, 4, 5, 6] from rfl]
    simp only [List.foldl_cons, List.foldl_nil, harmStep, f02, f03, f04, f05, f06]
    norm_num
  have hf1 : harmFold log2q 6 [m, m + 12, m + 12 * log2q 3, m + 24] [e0, e1, e2, e3] 1 = (e1 + e3 / 2, 2) := by
    rw [harmFold, show List.range' 2 (6-1) = [2, 3, 4, 5, 6] from rfl]
    simp only [List.foldl_cons, List.foldl_nil, harmStep, f12, f13, f14, f15, f16]
    norm_num
  have hf2 : harmFold log2q 6 [m, m + 12, m + 12 * log2q 3, m + 24] [e0, e1, e2, e3] 2 = (e2, 1) := by
    rw [harmFold, show List.range' 2 (6-1) = [2, 3, 4, 5, 6] from rfl]
    simp only [List.foldl_cons, List.foldl_nil, harmStep, f22, f23, f24, f25, f26]
    norm_num
  have hf3 : harmFold log2q 6 [m, m + 12, m + 12 * log2q 3, m + 24] [e0, e1, e2, e3] 3 = (e3, 1) := by
    rw [harmFold, show List.range' 2 (6-1) = [2, 3, 4, 5, 6] from rfl]
    simp only [List.foldl_cons, List.foldl_nil, harmStep, f32, f33, f34, f35, f36]
    norm_num

  have hS0 : (0:ℚ) < e0 + e1 / 2 + e2 / 3 + e3 / 4 := by linarith
  have hsq0pos : (0:ℚ) < (e0 + e1 / 2 + e2 / 3 + e3 / 4) ^ 2 * 4 :=
    mul_pos (pow_pos hS0 2) (by norm_num)
  have hs0 : scoreSq log2q 6 [m, m + 12, m + 12 * log2q 3, m + 24] [e0, e1, e2, e3] 0 =
      (e0 + e1 / 2 + e2 / 3 + e3 / 4) ^ 2 * 4 := by
    rw [scoreSq, if_pos (show (24:ℚ) ≤ ([m, m + 12, m + 12 * log2q 3, m + 24] : List ℚ).getD 0 0 ∧
        ([m, m + 12, m + 12 * log2q 3, m + 24] : List ℚ).getD 0 0 ≤ 96 from ⟨hm1, hm2⟩), hf0]
    norm_num
  have hb1 : scoreSq log2q 6 [m, m + 12, m + 12 * log2q 3, m + 24] [e0, e1, e2, e3] 1 ≤
      (e0 + e1 / 2 + e2 / 3 + e3 / 4) ^ 2 * 4 := by
    rw [scoreSq]
    split_ifs with h
    · rw [hf1]
      have hkey : (e1 + e3 / 2) ^ 2 ≤ (e0 + e1 / 2 + e2 / 3 + e3 / 4) ^ 2 :=
        pow_le_pow_left₀ (by linarith) (by linarith) 2
      push_cast
      nlinarith [hkey, sq_nonneg (e0 + e1 / 2 + e2 / 3 + e3 / 4)]
    · linarith
  have hb2 : scoreSq log2q 6 [m, m + 12, m + 12 * log2q 3, m + 24] [e0, e1, e2, e3] 2 ≤
      (e0 + e1 / 2 + e2 / 3 + e3 / 4) ^ 2 * 4 := by
    rw [scoreSq]
    split_ifs with h
    · rw [hf2]
      have hkey : e2 ^ 2 ≤ (e0 + e1 / 2 + e2 / 3 + e3 / 4) ^ 2 :=
        pow_le_pow_left₀ (by linarith) (by linarith) 2
      push_cast
      nlinarith [hkey, sq_nonneg (e0 + e1 / 2 + e2 / 3 + e3 / 4)]
    · linarith
  have hb3 : scoreSq log2q 6 [m, m + 12, m + 12 * log2q 3, m + 24] [e0, e1, e2, e3] 3 ≤
      (e0 + e1 / 2 + e2 / 3 + e3 / 4) ^ 2 * 4 := by
    rw [scoreSq]
    split_ifs with h
    · rw [hf3]
      have hkey : e3 ^ 2 ≤ (e0 + e1 / 2 + e2 / 3 + e3 / 4) ^ 2 :=
        pow_le_pow_left₀ (by linarith) (by linarith) 2
      push_cast
      nlinarith [hkey, sq_nonneg (e0 + e1 / 2 + e2 / 3 + e3 / 4)]
    · linarith
  have hsc : scoresSq log2q 6 [m, m + 12, m + 12 * log2q 3, m + 24] [e0, e1, e2, e3] =
      [scoreSq log2q 6 [m, m + 12, m + 12 * log2q 3, m + 24] [e0, e1, e2, e3] 0,
       scoreSq log2q 6 [m, m + 12, m + 12 * log2q 3, m + 24] [e0, e1, e2, e3] 1,
       scoreSq log2q 6 [m, m + 12, m + 12 * log2q 3, m + 24] [e0, e1, e2, e3] 2,
       scoreSq log2q 6 [m, m + 12, m + 12 * log2q 3, m + 24] [e0, e1, e2, e3] 3] := by
    rw [scoresSq,
      show List.range ([m, m + 12, m + 12 * log2q 3, m + 24] : List ℚ).length = [0, 1, 2, 3]
        from rfl]
    rfl
  have hmax : maxScoreSq log2q 6 [m, m + 12, m + 12 * log2q 3, m + 24] [e0, e1, e2, e3] =
      (e0 + e1 / 2 + e2 / 3 + e3 / 4) ^ 2 * 4 := by
    rw [maxScoreSq, hsc, hs0]
    simp only [List.foldl_cons, List.foldl_nil]
    rw [if_pos hsq0pos, if_neg (not_lt.mpr hb1), if_neg (not_lt.mpr hb2),
      if_neg (not_lt.mpr hb3)]
  have hns : normScoresSq log2q 6 [m, m + 12, m + 12 * log2q 3, m + 24] [e0, e1, e2, e3] =
      [((e0 + e1 / 2 + e2 / 3 + e3 / 4) ^ 2 * 4) / ((e0 + e1 / 2 + e2 / 3 + e3 / 4) ^ 2 * 4),
       scoreSq log2q 6 [m, m + 12, m + 12 * log2q 3, m + 24] [e0, e1, e2, e3] 1 /
         ((e0 + e1 / 2 + e2 / 3 + e3 / 4) ^ 2 * 4),
       scoreSq log2q 6 [m, m + 12, m + 12 * log2q 3, m + 24] [e0, e1, e2, e3] 2 /
         ((e0 + e1 / 2 + e2 / 3 + e3 / 4) ^ 2 * 4),
       scoreSq log2q 6 [m, m + 12, m + 12 * log2q 3, m + 24] [e0, e1, e2, e3] 3 /
         ((e0 + e1 / 2 + e2 / 3 + e3 / 4) ^ 2 * 4)] := by
    simp only [normScoresSq]
    rw [hmax, if_pos hsq0pos, hsc, hs0]
    rfl
  have hgt0 : ((e0 + e1 / 2 + e2 / 3 + e3 / 4) ^ 2 * 4) /
      ((e0 + e1 / 2 + e2 / 3 + e3 / 4) ^ 2 * 4) > (9:ℚ)/100 := by
    rw [div_self (ne_of_gt hsq0pos)]
    norm_num
  have hone : ((e0 + e1 / 2 + e2 / 3 + e3 / 4) ^ 2 * 4) /
      ((e0 + e1 / 2 + e2 / 3 + e3 / 4) ^ 2 * 4) = 1 := div_self (ne_of_gt hsq0pos)
  have hpick : pickBest
      (normScoresSq log2q 6 [m, m + 12, m + 12 * log2q 3, m + 24] [e0, e1, e2, e3])
      (List.replicate 4 false) =
      (some 0, ([((e0 + e1 / 2 + e2 / 3 + e3 / 4) ^ 2 * 4) / ((e0 + e1 / 2 + e2 / 3 + e3 / 4) ^ 2 * 4),
       scoreSq log2q 6 [m, m + 12, m + 12 * log2q 3, m + 24] [e0, e1, e2, e3] 1 /
         ((e0 + e1 / 2 + e2 / 3 + e3 / 4) ^ 2 * 4),
       scoreSq log2q 6 [m, m + 12, m + 12 * log2q 3, m + 24] [e0, e1, e2, e3] 2 /
         ((e0 + e1 / 2 + e2 / 3 + e3 / 4) ^ 2 * 4),
       scoreSq log2q 6 [m, m + 12, m + 12 * log2q 3, m + 24] [e0, e1, e2, e3] 3 /
         ((e0 + e1 / 2 + e2 / 3 + e3 / 4) ^ 2 * 4)] : List ℚ).getD 0 0) := by
    rw [pickBest, hns]
    rw [show List.range
        ([((e0 + e1 / 2 + e2 / 3 + e3 / 4) ^ 2 * 4) / ((e0 + e1 / 2 + e2 / 3 + e3 / 4) ^ 2 * 4),
       scoreSq log2q 6 [m, m + 12, m + 12 * log2q 3, m + 24] [e0, e1, e2, e3] 1 /
         ((e0 + e1 / 2 + e2 / 3 + e3 / 4) ^ 2 * 4),
       scoreSq log2q 6 [m, m + 12, m + 12 * log2q 3, m + 24] [e0, e1, e2, e3] 2 /
         ((e0 + e1 / 2 + e2 / 3 + e3 / 4) ^ 2 * 4),
       scoreSq log2q 6 [m, m + 12, m + 12 * log2q 3, m + 24] [e0, e1, e2, e3] 3 /
         ((e0 + e1 / 2 + e2 / 3 + e3 / 4) ^ 2 * 4)] : List ℚ).length = [0, 1, 2, 3] from rfl]
    rw [pickAux_cons_pos [((e0 + e1 / 2 + e2 / 3 + e3 / 4) ^ 2 * 4) / ((e0 + e1 / 2 + e2 / 3 + e3 / 4) ^ 2 * 4),
       scoreSq log2q 6 [m, m + 12, m + 12 * log2q 3, m + 24] [e0, e1, e2, e3] 1 /
         ((e0 + e1 / 2 + e2 / 3 + e3 / 4) ^ 2 * 4),
       scoreSq log2q 6 [m, m + 12, m + 12 * log2q 3, m + 24] [e0, e1, e2, e3] 2 /
         ((e0 + e1 / 2 + e2 / 3 + e3 / 4) ^ 2 * 4),
       scoreSq log2q 6 [m, m + 12, m + 12 * log2q 3, m + 24] [e0, e1, e2, e3] 3 /
         ((e0 + e1 / 2 + e2 / 3 + e3 / 4) ^ 2 * 4)]
      (List.replicate 4 false) 0 [1, 2, 3] (none, 9/100) ⟨rfl, hgt0⟩]
    rw [pickAux_cons_neg [((e0 + e1 / 2 + e2 / 3 + e3 / 4) ^ 2 * 4) / ((e0 + e1 / 2 + e2 / 3 + e3 / 4) ^ 2 * 4),
       scoreSq log2q 6 [m, m + 12, m + 12 * log2q 3, m + 24] [e0, e1, e2, e3] 1 /
         ((e0 + e1 / 2 + e2 / 3 + e3 / 4) ^ 2 * 4),
       scoreSq log2q 6 [m, m + 12, m + 12 * log2q 3, m + 24] [e0, e1, e2, e3] 2 /
         ((e0 + e1 / 2 + e2 / 3 + e3 / 4) ^ 2 * 4),
       scoreSq log2q 6 [m, m + 12, m + 12 * log2q 3, m + 24] [e0, e1, e2, e3] 3 /
         ((e0 + e1 / 2 + e2 / 3 + e3 / 4) ^ 2 * 4)]
      (List.replicate 4 false) 1 [2, 3] (some 0, ([((e0 + e1 / 2 + e2 / 3 + e3 / 4) ^ 2 * 4) / ((e0 + e1 / 2 + e2 / 3 + e3 / 4) ^ 2 * 4),
       scoreSq log2q 6 [m, m + 12, m + 12 * log2q 3, m + 24] [e0, e1, e2, e3] 1 /
         ((e0 + e1 / 2 + e2 / 3 + e3 / 4) ^ 2 * 4),
       scoreSq log2q 6 [m, m + 12, m + 12 * log2q 3, m + 24] [e0, e1, e2, e3] 2 /
         ((e0 + e1 / 2 + e2 / 3 + e3 / 4) ^ 2 * 4),
       scoreSq log2q 6 [m, m + 12, m + 12 * log2q 3, m + 24] [e0, e1, e2, e3] 3 /
         ((e0 + e1 / 2 + e2 / 3 + e3 / 4) ^ 2 * 4)] : List ℚ).getD 0 0) (by
      rintro ⟨-, hgt⟩
      revert hgt
      show ¬(scoreSq log2q 6 [m, m + 12, m + 12 * log2q 3, m + 24] [e0, e1, e2, e3] 1 /
         ((e0 + e1 / 2 + e2 / 3 + e3 / 4) ^ 2 * 4) > ((e0 + e1 / 2 + e2 / 3 + e3 / 4) ^ 2 * 4) / ((e0 + e1 / 2 + e2 / 3 + e3 / 4) ^ 2 * 4))
      intro hgt
      rw [hone] at hgt
      have hle := (div_le_one hsq0pos).mpr hb1
      linarith)]
    rw [pickAux_cons_neg [((e0 + e1 / 2 + e2 / 3 + e3 / 4) ^ 2 * 4) / ((e0 + e1 / 2 + e2 / 3 + e3 / 4) ^ 2 * 4),
       scoreSq log2q 6 [m, m + 12, m + 12 * log2q 3, m + 24] [e0, e1, e2, e3] 1 /
         ((e0 + e1 / 2 + e2 / 3 + e3 / 4) ^ 2 * 4),
       scoreSq log2q 6 [m, m + 12, m + 12 * log2q 3, m + 24] [e0, e1, e2, e3] 2 /
         ((e0 + e1 / 2 + e2 / 3 + e3 / 4) ^ 2 * 4),
       scoreSq log2q 6 [m, m + 12, m + 12 * log2q 3, m + 24] [e0, e1, e2, e3] 3 /
         ((e0 + e1 / 2 + e2 / 3 + e3 / 4) ^ 2 * 4)]
      (List.replicate 4 false) 2 [3] (some 0, ([((e0 + e1 / 2 + e2 / 3 + e3 / 4) ^ 2 * 4) / ((e0 + e1 / 2 + e2 / 3 + e3 / 4) ^ 2 * 4),
       scoreSq log2q 6 [m, m + 12, m + 12 * log2q 3, m + 24] [e0, e1, e2, e3] 1 /
         ((e0 + e1 / 2 + e2 / 3 + e3 / 4) ^ 2 * 4),
       scoreSq log2q 6 [m, m + 12, m + 12 * log2q 3, m + 24] [e0, e1, e2, e3] 2 /
         ((e0 + e1 / 2 + e2 / 3 + e3 / 4) ^ 2 * 4),
       scoreSq log2q 6 [m, m + 12, m + 12 * log2q 3, m + 24] [e0, e1, e2, e3] 3 /
         ((e0 + e1 / 2 + e2 / 3 + e3 / 4) ^ 2 * 4)] : List ℚ).getD 0 0) (by
      rintro ⟨-, hgt⟩
      revert hgt
      show ¬(scoreSq log2q 6 [m, m + 12, m + 12 * log2q 3, m + 24] [e0, e1, e2, e3] 2 /
         ((e0 + e1 / 2 + e2 / 3 + e3 / 4) ^ 2 * 4) > ((e0 + e1 / 2 + e2 / 3 + e3 / 4) ^ 2 * 4) / ((e0 + e1 / 2 + e2 / 3 + e3 / 4) ^ 2 * 4))
      intro hgt
      rw [hone] at hgt
      have hle := (div_le_one hsq0pos).mpr hb2
      linarith)]
    rw [pickAux_cons_neg [((e0 + e1 / 2 + e2 / 3 + e3 / 4) ^ 2 * 4) / ((e0 + e1 / 2 + e2 / 3 + e3 / 4) ^ 2 * 4),
       scoreSq log2q 6 [m, m + 12, m + 12 * log2q 3, m + 24] [e0, e1, e2, e3] 1 /
         ((e0 + e1 / 2 + e2 / 3 + e3 / 4) ^ 2 * 4),
       scoreSq log2q 6 [m, m + 12, m + 12 * log2q 3, m + 24] [e0, e1, e2, e3] 2 /
         ((e0 + e1 / 2 + e2 / 3 + e3 / 4) ^ 2 * 4),
       scoreSq log2q 6 [m, m + 12, m + 12 * log2q 3, m + 24] [e0, e1, e2, e3] 3 /
         ((e0 + e1 / 2 + e2 / 3 + e3 / 4) ^ 2 * 4)]
      (List.replicate 4 false) 3 [] (some 0, ([((e0 + e1 / 2 + e2 / 3 + e3 / 4) ^ 2 * 4) / ((e0 + e1 / 2 + e2 / 3 + e3 / 4) ^ 2 * 4),
       scoreSq log2q 6 [m, m + 12, m + 12 * log2q 3, m + 24] [e0, e1, e2, e3] 1 /
         ((e0 + e1 / 2 + e2 / 3 + e3 / 4) ^ 2 * 4),
       scoreSq log2q 6 [m, m + 12, m + 12 * log2q 3, m + 24] [e0, e1, e2, e3] 2 /
         ((e0 + e1 / 2 + e2 / 3 + e3 / 4) ^ 2 * 4),
       scoreSq log2q 6 [m, m + 12, m + 12 * log2q 3, m + 24] [e0, e1, e2, e3] 3 /
         ((e0 + e1 / 2 + e2 / 3 + e3 / 4) ^ 2 * 4)] : List ℚ).getD 0 0) (by
      rintro ⟨-, hgt⟩
      revert hgt
      show ¬(scoreSq log2q 6 [m, m + 12, m + 12 * log2q 3, m + 24] [e0, e1, e2, e3] 3 /
         ((e0 + e1 / 2 + e2 / 3 + e3 / 4) ^ 2 * 4) > ((e0 + e1 / 2 + e2 / 3 + e3 / 4) ^ 2 * 4) / ((e0 + e1 / 2 + e2 / 3 + e3 / 4) ^ 2 * 4))
      intro hgt
      rw [hone] at hgt
      have hle := (div_le_one hsq0pos).mpr hb3
      linarith)]
    rfl
  have hd1 : |([m, m + 12, m + 12 * log2q 3, m + 24] : List ℚ).getD 1 0 -
      (([m, m + 12, m + 12 * log2q 3, m + 24] : List ℚ).getD 0 0 + 12 * log2q 2)| < 1/2 := by
    show |(m + 12) - (m + 12 * log2q 2)| < 1/2
    rw [abs_lt]; constructor <;> linarith
  have hd2 : |([m, m + 12, m + 12 * log2q 3, m + 24] : List ℚ).getD 2 0 -
      (([m, m + 12, m + 12 * log2q 3, m + 24] : List ℚ).getD 0 0 + 12 * log2q 3)| < 1/2 := by
    show |(m + 12 * log2q 3) - (m + 12 * log2q 3)| < 1/2
    rw [abs_lt]; constructor <;> linarith
  have hd3 : |([m, m + 12, m + 12 * log2q 3, m + 24] : List ℚ).getD 3 0 -
      (([m, m + 12, m + 12 * log2q 3, m + 24] : List ℚ).getD 0 0 + 12 * log2q 4)| < 1/2 := by
    show |(m + 24) - (m + 12 * log2q 4)| < 1/2
    rw [abs_lt]; constructor <;> linarith
  have hmark : markUsed log2q 6 [m, m + 12, m + 12 * log2q 3, m + 24]
      (([m, m + 12, m + 12 * log2q 3, m + 24] : List ℚ).getD 0 0)
      ((List.replicate 4 false).set 0 true) = [true, true, true, true] := by
    rw [markUsed,
      show List.range ([m, m + 12, m + 12 * log2q 3, m + 24] : List ℚ).length = [0, 1, 2, 3] from rfl,
      show List.range' 2 (6 - 1) = [2, 3, 4, 5, 6] from rfl]
    simp only [List.map_cons, List.map_nil, List.any_cons, List.any_nil]
    rw [show ((List.replicate 4 false).set 0 true).getD 0 false = true from rfl,
      show ((List.replicate 4 false).set 0 true).getD 1 false = false from rfl,
      show ((List.replicate 4 false).set 0 true).getD 2 false = false from rfl,
      show ((List.replicate 4 false).set 0 true).getD 3 false = false from rfl]
    rw [decide_eq_true hd1, decide_eq_true hd2, decide_eq_true hd3]
    simp only [Bool.true_or, Bool.or_true, Bool.false_or, Bool.or_false]
  have hpick2 : pickBest
      (normScoresSq log2q 6 [m, m + 12, m + 12 * log2q 3, m + 24] [e0, e1, e2, e3])
      [true, true, true, true] = (none, 9/100) := by
    rw [pickBest, hns]
    rw [show List.range
        ([((e0 + e1 / 2 + e2 / 3 + e3 / 4) ^ 2 * 4) / ((e0 + e1 / 2 + e2 / 3 + e3 / 4) ^ 2 * 4),
       scoreSq log2q 6 [m, m + 12, m + 12 * log2q 3, m + 24] [e0, e1, e2, e3] 1 /
         ((e0 + e1 / 2 + e2 / 3 + e3 / 4) ^ 2 * 4),
       scoreSq log2q 6 [m, m + 12, m + 12 * log2q 3, m + 24] [e0, e1, e2, e3] 2 /
         ((e0 + e1 / 2 + e2 / 3 + e3 / 4) ^ 2 * 4),
       scoreSq log2q 6 [m, m + 12, m + 12 * log2q 3, m + 24] [e0, e1, e2, e3] 3 /
         ((e0 + e1 / 2 + e2 / 3 + e3 / 4) ^ 2 * 4)] : List ℚ).length = [0, 1, 2, 3] from rfl]
    rw [pickAux_cons_neg [((e0 + e1 / 2 + e2 / 3 + e3 / 4) ^ 2 * 4) / ((e0 + e1 / 2 + e2 / 3 + e3 / 4) ^ 2 * 4),
       scoreSq log2q 6 [m, m + 12, m + 12 * log2q 3, m + 24] [e0, e1, e2, e3] 1 /
         ((e0 + e1 / 2 + e2 / 3 + e3 / 4) ^ 2 * 4),
       scoreSq log2q 6 [m, m + 12, m + 12 * log2q 3, m + 24] [e0, e1, e2, e3] 2 /
         ((e0 + e1 / 2 + e2 / 3 + e3 / 4) ^ 2 * 4),
       scoreSq log2q 6 [m, m + 12, m + 12 * log2q 3, m + 24] [e0, e1, e2, e3] 3 /
         ((e0 + e1 / 2 + e2 / 3 + e3 / 4) ^ 2 * 4)]
      [true, true, true, true] 0 [1, 2, 3] (none, 9/100) (fun hc => absurd hc.1 (by decide))]
    rw [pickAux_cons_neg [((e0 + e1 / 2 + e2 / 3 + e3 / 4) ^ 2 * 4) / ((e0 + e1 / 2 + e2 / 3 + e3 / 4) ^ 2 * 4),
       scoreSq log2q 6 [m, m + 12, m + 12 * log2q 3, m + 24] [e0, e1, e2, e3] 1 /
         ((e0 + e1 / 2 + e2 / 3 + e3 / 4) ^ 2 * 4),
       scoreSq log2q 6 [m, m + 12, m + 12 * log2q 3, m + 24] [e0, e1, e2, e3] 2 /
         ((e0 + e1 / 2 + e2 / 3 + e3 / 4) ^ 2 * 4),
       scoreSq log2q 6 [m, m + 12, m + 12 * log2q 3, m + 24] [e0, e1, e2, e3] 3 /
         ((e0 + e1 / 2 + e2 / 3 + e3 / 4) ^ 2 * 4)]
      [true, true, true, true] 1 [2, 3] (none, 9/100) (fun hc => absurd hc.1 (by decide))]
    rw [pickAux_cons_neg [((e0 + e1 / 2 + e2 / 3 + e3 / 4) ^ 2 * 4) / ((e0 + e1 / 2 + e2 / 3 + e3 / 4) ^ 2 * 4),
       scoreSq log2q 6 [m, m + 12, m + 12 * log2q 3, m + 24] [e0, e1, e2, e3] 1 /
         ((e0 + e1 / 2 + e2 / 3 + e3 / 4) ^ 2 * 4),
       scoreSq log2q 6 [m, m + 12, m + 12 * log2q 3, m + 24] [e0, e1, e2, e3] 2 /
         ((e0 + e1 / 2 + e2 / 3 + e3 / 4) ^ 2 * 4),
       scoreSq log2q 6 [m, m + 12, m + 12 * log2q 3, m + 24] [e0, e1, e2, e3] 3 /
         ((e0 + e1 / 2 + e2 / 3 + e3 / 4) ^ 2 * 4)]
      [true, true, true, true] 2 [3] (none, 9/100) (fun hc => absurd hc.1 (by decide))]
    rw [pickAux_cons_neg [((e0 + e1 / 2 + e2 / 3 + e3 / 4) ^ 2 * 4) / ((e0 + e1 / 2 + e2 / 3 + e3 / 4) ^ 2 * 4),
       scoreSq log2q 6 [m, m + 12, m + 12 * log2q 3, m + 24] [e0, e1, e2, e3] 1 /
         ((e0 + e1 / 2 + e2 / 3 + e3 / 4) ^ 2 * 4),
       scoreSq log2q 6 [m, m + 12, m + 12 * log2q 3, m + 24] [e0, e1, e2, e3] 2 /
         ((e0 + e1 / 2 + e2 / 3 + e3 / 4) ^ 2 * 4),
       scoreSq log2q 6 [m, m + 12, m + 12 * log2q 3, m + 24] [e0, e1, e2, e3] 3 /
         ((e0 + e1 / 2 + e2 / 3 + e3 / 4) ^ 2 * 4)]
      [true, true, true, true] 3 [] (none, 9/100) (fun hc => absurd hc.1 (by decide))]
    rfl
  have hsel2 : selectLoop log2q 6 [m, m + 12, m + 12 * log2q 3, m + 24]
      (normScoresSq log2q 6 [m, m + 12, m + 12 * log2q 3, m + 24] [e0, e1, e2, e3]) 7
      [true, true, true, true] = [] := by
    rw [show (7:ℕ) = 6 + 1 from rfl, selectLoop_step, hpick2]
  rw [sieve,
    show ([m, m + 12, m + 12 * log2q 3, m + 24] : List ℚ).length = 4 from rfl,
    show (8:ℕ) = 7 + 1 from rfl, selectLoop_step, hpick]
  show ([m, m + 12, m + 12 * log2q 3, m + 24] : List ℚ).getD 0 0 ::
      selectLoop log2q 6 [m, m + 12, m + 12 * log2q 3, m + 24]
        (normScoresSq log2q 6 [m, m + 12, m + 12 * log2q 3, m + 24] [e0, e1, e2, e3]) 7
        (markUsed log2q 6 [m, m + 12, m + 12 * log2q 3, m + 24]
          (([m, m + 12, m + 12 * log2q 3, m + 24] : List ℚ).getD 0 0)
          ((List.replicate 4 false).set 0 true)) = [m]
  rw [hmark, hsel2]
  rfl


/-- Witness for C3 (amended) with the IEEE-double log2 table, fundamental
MIDI 60 and energies 4 ≥ 3 ≥ 2 ≥ 1 > 0: the sieve returns exactly the base. -/
theorem harmonic_sieve_single_fundamental_witness :
    (log2d 2 = 1 ∧ (24:ℚ) ≤ 60 ∧ (0:ℚ) < 1) ∧
      sieve log2d 6 8 [60, 60 + 12, 60 + 12 * log2d 3, 60 + 24] [4, 3, 2, 1] = [60] :=
  ⟨⟨rfl, by norm_num, by norm_num⟩,
    harmonic_sieve_single_fundamental log2d 60 4 3 2 1 rfl rfl
      (by with_unfolding_all decide) (by with_unfolding_all decide)
      (by with_unfolding_all decide) (by with_unfolding_all decide)
      (by with_unfolding_all decide) (by with_unfolding_all decide)
      (by norm_num) (by norm_num)
      (by norm_num) (by norm_num) (by norm_num) (by norm_num)⟩

end PitchPlease
